import Mathlib

/-!
Serfer: dispatch of Serf events to per-category handlers.

A shallow embedding of `handler.go` (`SerfEventHandler.HandleEvent`,
`handleUserEvent`, `getRawEventName`, `isServiceEvent`).

`HandleEvent` returns nothing in Go; everything it does is a sequence of calls
on other objects (the registered handlers and the logger), after which it
either returns or panics.  The embedding makes that explicit: running
`HandleEvent` yields a `Run`, the ordered list of calls made and the panic, if
any, that ended the run.

Modelling conventions.
* A Go string is a byte sequence; it is modelled by a Lean `String`, and
  `strings.HasPrefix` / `strings.TrimPrefix` by the same length-and-slice
  comparison on its characters (for well-formed UTF-8 text the two agree).
* An interface-typed field (`NodeJoined`, `Logger`, ...) is `Option`: `none` is
  the nil interface.  Calling a method on a nil interface panics.
* A registered handler or logger is an external object.  Calling it is recorded
  in the trace; the call itself is taken to return.
* `serf.Event` is an interface.  Its dynamic type is one of `serf.MemberEvent`,
  `serf.UserEvent`, `*serf.Query` (possibly a nil pointer), or any other
  implementation (such as the test suite's `MockEvent`), which reports whatever
  `EventType()` it likes.
-/

namespace Serfer

/-! ## Types of the `serf` library used by the dispatcher -/

/-- The Go type `serf.EventType`, an `int`. -/
abbrev EventType := Int

/-- The Go type `serf.MemberStatus`, an `int`. -/
abbrev MemberStatus := Int

def EventMemberJoin : EventType := 0
def EventMemberLeave : EventType := 1
def EventMemberFailed : EventType := 2
def EventMemberUpdate : EventType := 3
def EventMemberReap : EventType := 4
def EventUser : EventType := 5
def EventQuery : EventType := 6

/-- The constant `StatusReap = serf.MemberStatus(-1)` of `handler.go`. -/
def StatusReap : MemberStatus := -1

/-- The struct `serf.Member`. `Addr` is the byte slice of a `net.IP`, `Tags` the
entries of a `map[string]string`. -/
structure Member where
  Name : String
  Addr : List Nat
  Port : Nat
  Tags : List (String × String)
  Status : MemberStatus
  ProtocolMin : Nat
  ProtocolMax : Nat
  ProtocolCur : Nat
  DelegateMin : Nat
  DelegateMax : Nat
  DelegateCur : Nat
deriving DecidableEq, Repr

/-- The struct `serf.MemberEvent`; `Typ` is its field `Type`. -/
structure MemberEvent where
  Typ : EventType
  Members : List Member
deriving DecidableEq, Repr

/-- The struct `serf.UserEvent`. -/
structure UserEvent where
  LTime : Nat
  Name : String
  Payload : List Nat
  Coalesce : Bool
deriving DecidableEq, Repr

/-- The exported fields of the struct `serf.Query`. -/
structure Query where
  LTime : Nat
  Name : String
  Payload : List Nat
deriving DecidableEq, Repr

/-- A non-nil value of the interface `serf.Event`, by dynamic type. -/
inductive Event where
  /-- dynamic type `serf.MemberEvent` -/
  | member (m : MemberEvent)
  /-- dynamic type `serf.UserEvent` -/
  | user (u : UserEvent)
  /-- dynamic type `*serf.Query`; `none` is the nil pointer -/
  | query (q : Option Query)
  /-- any other implementation of the interface, reporting event type `t` -/
  | other (descr : String) (t : EventType)
deriving DecidableEq, Repr

/-- The method `EventType()` of each implementation: a member event reports its
`Type` field, a user event `EventUser`, a query pointer `EventQuery` (the
receiver is not dereferenced). -/
def Event.EventType : Event → EventType
  | .member m => m.Typ
  | .user _ => EventUser
  | .query _ => EventQuery
  | .other _ t => t

/-! ## The registry -/

/-- A registered handler object, identified by `id`. -/
structure Handler where
  id : Nat
deriving DecidableEq, Repr

/-- A logger object (an implementation of `log.Logger`), identified by `id`. -/
structure Logger where
  id : Nat
deriving DecidableEq, Repr

/-- The struct `SerfEventHandler`. -/
structure SerfEventHandler where
  ServicePrefix : String
  UserEvent : Option Handler
  UnknownEventHandler : Option Handler
  NodeJoined : Option Handler
  NodeLeft : Option Handler
  NodeFailed : Option Handler
  NodeReaped : Option Handler
  NodeUpdated : Option Handler
  QueryHandler : Option Handler
  Logger : Option Logger
deriving DecidableEq, Repr

/-! ## Observable behaviour -/

/-- The level methods of the logger that the dispatcher calls. -/
inductive Level where
  | Debug
  | Warn
deriving DecidableEq, Repr

/-- The argument passed after the format string of a log call. -/
inductive LogArg where
  | name (n : String)
  | userEvent (u : UserEvent)
  | event (e : Event)
deriving DecidableEq, Repr

/-- One call made by the dispatcher on another object: a handler method with its
receiver and payload, or a logger method with its format string and argument. -/
inductive Effect where
  | HandleMemberJoin (h : Handler) (e : MemberEvent)
  | HandleMemberLeave (h : Handler) (e : MemberEvent)
  | HandleMemberFailure (h : Handler) (e : MemberEvent)
  | HandleMemberReap (h : Handler) (e : MemberEvent)
  | HandleMemberUpdate (h : Handler) (e : MemberEvent)
  | HandleUserEvent (h : Handler) (e : UserEvent)
  | HandleUnknownEvent (h : Handler) (e : UserEvent)
  | HandleQueryEvent (h : Handler) (q : Query)
  | Log (l : Logger) (lvl : Level) (fmt : String) (arg : LogArg)
deriving DecidableEq, Repr

/-- The run-time panics the dispatcher itself can raise. -/
inductive Panic where
  /-- a failed type assertion `e.(T)` -/
  | typeAssertion
  /-- a nil pointer dereference, or a method call on a nil interface -/
  | nilDereference
deriving DecidableEq, Repr

/-- The outcome of running a piece of the dispatcher: the calls made, in order,
and the panic that ended the run (`none`: it returned). -/
structure Run where
  trace : List Effect
  panic : Option Panic
deriving DecidableEq, Repr

/-- Returning at once, having done nothing. -/
def Run.skip : Run := ⟨[], none⟩

/-- Making one call, then returning. -/
def Run.call (c : Effect) : Run := ⟨[c], none⟩

/-- Panicking at once. -/
def Run.fail (p : Panic) : Run := ⟨[], some p⟩

/-- Sequencing of statements: `b` runs after `a` unless `a` panicked. -/
def Run.andThen (a b : Run) : Run :=
  match a.panic with
  | some _ => a
  | none => ⟨a.trace ++ b.trace, b.panic⟩

/-- Whether an effect is a handler invocation (as opposed to a log call). -/
def Effect.isHandlerCall : Effect → Bool
  | .Log _ _ _ _ => false
  | _ => true

/-- The handler invocations of a run, in order. -/
def Run.handlerCalls (r : Run) : List Effect :=
  r.trace.filter Effect.isHandlerCall

/-- The log calls of a run, in order. -/
def Run.logCalls (r : Run) : List Effect :=
  r.trace.filter (fun c => !c.isHandlerCall)

/-! ## Go library functions -/

/-- Go's `strings.HasPrefix`:
`len(s) >= len(prefix) && s[0:len(prefix)] == prefix`. -/
def strings.HasPrefix (s pre : String) : Bool :=
  decide (s.data.length ≥ pre.data.length) && (s.data.take pre.data.length == pre.data)

/-- Go's `strings.TrimPrefix`:
`if HasPrefix(s, prefix) { return s[len(prefix):] }; return s`. -/
def strings.TrimPrefix (s pre : String) : String :=
  if strings.HasPrefix s pre then ⟨s.data.drop pre.data.length⟩ else s

/-- The type assertion `e.(serf.MemberEvent)`. -/
def Event.assertMemberEvent : Event → Except Panic MemberEvent
  | .member m => .ok m
  | _ => .error .typeAssertion

/-- The type assertion `e.(serf.UserEvent)`. -/
def Event.assertUserEvent : Event → Except Panic UserEvent
  | .user u => .ok u
  | _ => .error .typeAssertion

/-- The expression `*e.(*serf.Query)`: a type assertion, then a dereference. -/
def Event.assertDerefQuery : Event → Except Panic Query
  | .query (some q) => .ok q
  | .query none => .error .nilDereference
  | _ => .error .typeAssertion

/-- A method call `s.Logger.Debug(fmt, arg)` or `s.Logger.Warn(fmt, arg)`. -/
def logCall (lg : Option Logger) (lvl : Level) (fmt : String) (arg : LogArg) : Run :=
  match lg with
  | none => Run.fail .nilDereference
  | some l => Run.call (.Log l lvl fmt arg)

/-! ## The dispatcher (`handler.go`) -/

/-- The method `isServiceEvent`: `strings.HasPrefix(name, s.ServicePrefix+":")`. -/
def SerfEventHandler.isServiceEvent (s : SerfEventHandler) (name : String) : Bool :=
  strings.HasPrefix name (s.ServicePrefix ++ ":")

/-- The method `getRawEventName`: `strings.TrimPrefix(name, s.ServicePrefix+":")`. -/
def SerfEventHandler.getRawEventName (s : SerfEventHandler) (name : String) : String :=
  strings.TrimPrefix name (s.ServicePrefix ++ ":")

/-- The method `handleUserEvent`. -/
def SerfEventHandler.handleUserEvent (s : SerfEventHandler) (event : Serfer.UserEvent) : Run :=
  let name := event.Name
  if s.isServiceEvent name then
    let event := { event with Name := s.getRawEventName name }
    (logCall s.Logger .Debug "serfer: user event: %s" (.name event.Name)).andThen
      (match s.UserEvent with
        | some h => Run.call (.HandleUserEvent h event)
        | none => Run.skip)
  else
    (logCall s.Logger .Warn "serfer: unknown event: %v" (.userEvent event)).andThen
      (match s.UnknownEventHandler with
        | some h => Run.call (.HandleUnknownEvent h event)
        | none => Run.skip)

/-- One arm `if slot != nil { slot.Method(conv(e)) }` of the switch: the
conversion of the event is evaluated only when the slot is populated. -/
def guarded {α : Type} (slot : Option Handler) (conv : Except Panic α)
    (method : Handler → α → Effect) : Run :=
  match slot with
  | none => Run.skip
  | some h =>
    match conv with
    | .ok x => Run.call (method h x)
    | .error p => Run.fail p

/-- The method `HandleEvent`; `none` is the nil event. The cases of the switch
are tried in the order of the source. -/
def SerfEventHandler.HandleEvent (s : SerfEventHandler) (e : Option Event) : Run :=
  match e with
  | none => Run.skip
  | some e =>
    let t := e.EventType
    if t = EventMemberJoin then
      guarded s.NodeJoined e.assertMemberEvent .HandleMemberJoin
    else if t = EventMemberLeave then
      guarded s.NodeLeft e.assertMemberEvent .HandleMemberLeave
    else if t = EventMemberFailed then
      guarded s.NodeFailed e.assertMemberEvent .HandleMemberFailure
    else if t = EventMemberReap then
      guarded s.NodeReaped e.assertMemberEvent .HandleMemberReap
    else if t = EventUser then
      match e.assertUserEvent with
      | .ok u => s.handleUserEvent u
      | .error p => Run.fail p
    else if t = EventMemberUpdate then
      guarded s.NodeUpdated e.assertMemberEvent .HandleMemberUpdate
    else if t = EventQuery then
      guarded s.QueryHandler e.assertDerefQuery .HandleQueryEvent
    else
      logCall s.Logger .Warn "unhandled Serf Event: %#v" (.event e)

/-! ## Concrete values of the test suite (`handler_test.go`) -/

/-- The registry of `SetupTest`: prefix `"serfer"`, one mock object in every
handler slot, a `NullLogger`. -/
def suiteHandler : SerfEventHandler :=
  { ServicePrefix := "serfer"
    UserEvent := some ⟨1⟩
    UnknownEventHandler := some ⟨1⟩
    NodeJoined := some ⟨1⟩
    NodeLeft := some ⟨1⟩
    NodeFailed := some ⟨1⟩
    NodeReaped := some ⟨1⟩
    NodeUpdated := some ⟨1⟩
    QueryHandler := some ⟨1⟩
    Logger := some ⟨0⟩ }

/-- The member of `SetupTest`: address `net.ParseIP("127.0.0.1")` (the 16-byte
form of the address), port 9022, status `serf.StatusAlive` (1), and the
protocol bounds of the library, `serf.ProtocolVersionMin` (2) and
`serf.ProtocolVersionMax` (5). -/
def suiteMember : Member :=
  { Name := ""
    Addr := [0, 0, 0, 0, 0, 0, 0, 0, 0, 0, 255, 255, 127, 0, 0, 1]
    Port := 9022
    Tags := []
    Status := 1
    ProtocolMin := 2
    ProtocolMax := 5
    ProtocolCur := 5
    DelegateMin := 2
    DelegateMax := 5
    DelegateCur := 5 }

/-- A registry with a prefix and nothing else set: every handler slot and the
`Logger` field hold Go's zero value, nil. -/
def bareHandler : SerfEventHandler :=
  { ServicePrefix := "serfer"
    UserEvent := none
    UnknownEventHandler := none
    NodeJoined := none
    NodeLeft := none
    NodeFailed := none
    NodeReaped := none
    NodeUpdated := none
    QueryHandler := none
    Logger := none }

/-- The user event of `TestUserEvent`. -/
def suiteUserEvent : UserEvent :=
  { LTime := 0, Name := "serfer:user-event", Payload := [], Coalesce := false }

/-- The user event of `TestUserEvent_UnknownEvent`. -/
def suiteUnknownUserEvent : UserEvent :=
  { LTime := 0, Name := "unk", Payload := [], Coalesce := false }

/-- The registry of `SetupTest` with the `Logger` field left unset (nil). -/
def suiteHandlerNoLogger : SerfEventHandler :=
  { suiteHandler with Logger := none }

/-- The event types the switch of `HandleEvent` has a case for. -/
def knownEventTypes : List EventType :=
  [EventMemberJoin, EventMemberLeave, EventMemberFailed, EventMemberUpdate,
   EventMemberReap, EventUser, EventQuery]

/-- The event of `TestUnknownEvent`: a mock event of type `serf.EventType(-1)`. -/
def suiteMockEvent : Event := .other "UnknownType" (-1)

/-- The member event of `TestNodeReaped`. -/
def suiteReapEvent : MemberEvent := ⟨EventMemberReap, [suiteMember]⟩

/-- The registry with every handler slot empty and a logger set. -/
def bareHandlerWithLogger : SerfEventHandler :=
  { bareHandler with Logger := some ⟨0⟩ }

/-- The event types whose case converts the event with `e.(serf.MemberEvent)`. -/
def memberEventTypes : List EventType :=
  [EventMemberJoin, EventMemberLeave, EventMemberFailed, EventMemberUpdate,
   EventMemberReap]

/-- Whether the concrete value of an event is the one the conversion of its
kind expects: a `serf.MemberEvent` reporting one of the five member kinds, a
`serf.UserEvent`, or a non-nil `*serf.Query`. -/
def Event.matchesKind : Event → Bool
  | .member m => decide (m.Typ ∈ memberEventTypes)
  | .user _ => true
  | .query (some _) => true
  | .query none => false
  | .other _ _ => false

/-- Whether an event has dynamic type `serf.UserEvent`. -/
def Event.isUser : Event → Bool
  | .user _ => true
  | _ => false

/-- The handler slot that `HandleEvent` tests for an event type of a member or
query kind (no slot is tested under a single name for the other types). -/
def SerfEventHandler.slotOf (s : SerfEventHandler) (t : EventType) : Option Handler :=
  if t = EventMemberJoin then s.NodeJoined
  else if t = EventMemberLeave then s.NodeLeft
  else if t = EventMemberFailed then s.NodeFailed
  else if t = EventMemberReap then s.NodeReaped
  else if t = EventMemberUpdate then s.NodeUpdated
  else if t = EventQuery then s.QueryHandler
  else none

/-- The registry of the test suite with prefix `"svc"` instead. -/
def svcHandler : SerfEventHandler :=
  { suiteHandler with ServicePrefix := "svc" }

/-! ## The dispatch loop (`serfer.go`)

`Start` launches a goroutine, the loop launches one goroutine per event, and
`Stop` runs in the goroutine of its caller.  The embedding is a transition
system: a state holds what the goroutines share (the channel, the cancellation
of `s.ctx`, the channel `s.done`) and where each goroutine stands; an `Action`
is one atomic step of one goroutine or of the environment, and `step` is
defined when that step can be taken.  Any interleaving of enabled steps is an
execution.

Granularity: one iteration of the loop (the `select` together with the body of
the case chosen) is one step.  The body of a case touches nothing another
goroutine can observe before its last statement, so nothing is lost.  A
`select` with both cases ready may take either: both steps are then enabled.

Environment: the producer sends on the channel (a send that would block is one
that has not happened yet) and may close it, once, after which it sends no more
(a send on a closed channel, like a second close, panics in the producer's own
goroutine, not in this package); the parent context passed to
`NewSerfer` may be cancelled at any time.  A handler invocation may start at any
time after it is spawned and may or may not return. -/

/-- Where a goroutine launched by `Start` stands: at the `select`, returned
after `close(s.done)`, or stopped by the panic of closing a closed channel. -/
inductive LoopStatus where
  | running
  | exited
  | panicked
deriving DecidableEq, Repr

/-- Where a goroutine `go s.handler.HandleEvent(evt)` stands: launched but not
yet scheduled, inside `HandleEvent`, or returned from it. -/
inductive TaskStatus where
  | spawned
  | running
  | returned
deriving DecidableEq, Repr

/-- A goroutine `go s.handler.HandleEvent(evt)`: the loop that launched it, the
value received from the channel, and where it stands. -/
structure Task where
  loop : Nat
  evt : Option Event
  status : TaskStatus
deriving DecidableEq, Repr

/-- Where a call of `Stop` stands after `s.cancel()`: blocked at `<-s.done`, or
returned. -/
inductive StopStatus where
  | waiting
  | returned
deriving DecidableEq, Repr

/-- The state of one `serfer` instance and of the goroutines around it.
`channel` holds the values sitting on `s.channel`, oldest first (a value is
`none` for the nil interface) and `closed` tells whether the producer has closed
that channel; `ctxDone` tells whether `s.ctx.Done()` is closed,
`done` whether `s.done` is closed; `loops`, `tasks` and `stops` have one entry
per call of `Start`, per event handed to the handler, and per call of `Stop`;
`crashed` is set when a goroutine has panicked, which ends the program. -/
structure State where
  channel : List (Option Event)
  closed : Bool
  ctxDone : Bool
  done : Bool
  loops : List LoopStatus
  tasks : List Task
  stops : List StopStatus
  crashed : Bool
deriving DecidableEq, Repr

/-- The function `NewSerfer`, given the values already sitting on the (open)
channel `c` and whether the parent context is already cancelled: the derived
context is done exactly when the parent is, `done` is a fresh open channel, and
no goroutine exists yet. -/
def NewSerfer (c : List (Option Event)) (parentDone : Bool) : State :=
  { channel := c, closed := false,
    ctxDone := parentDone, done := false,
    loops := [], tasks := [], stops := [], crashed := false }

/-- One atomic step of a goroutine or of the environment. -/
inductive Action where
  /-- the producer sends `e` on the channel -/
  | send (e : Option Event)
  /-- the parent context is cancelled -/
  | parentCancel
  /-- a call of `Start()`: `go func() { for { select ... } } ()` -/
  | start
  /-- loop `i` takes `case <-s.ctx.Done(): close(s.done); return` -/
  | loopCancel (i : Nat)
  /-- loop `i` takes `case evt := <-s.channel: go s.handler.HandleEvent(evt)` -/
  | loopRecv (i : Nat)
  /-- the goroutine of task `j` enters `HandleEvent` -/
  | taskBegin (j : Nat)
  /-- task `j` returns from `HandleEvent` -/
  | taskReturn (j : Nat)
  /-- a call of `Stop()` executes `s.cancel()` and goes on to `<-s.done` -/
  | stopCancel
  /-- the receive `<-s.done` of call `k` of `Stop()` completes; `Stop` returns -/
  | stopReturn (k : Nat)
  /-- the producer closes the channel -/
  | close
deriving DecidableEq, Repr

/-- The transition function: `step s a` is the state after action `a`, or
`none` when `a` cannot be taken in `s`.
* Nothing runs after a crash.
* `Start` has no guard: it always launches one more loop.
* The cancellation case is ready when `s.ctx.Done()` is closed; `close(s.done)`
  panics when `s.done` is already closed.
* The receive case is ready when a value sits on the channel; the value is
  taken off and handed to a new goroutine, and the loop is back at the `select`.
  The receive `evt := <-s.channel` has no `, ok`: on a closed channel with
  nothing left on it, it is ready too and yields nil, which is handed to a new
  goroutine all the same.
* The producer sends on an open channel only, and closes it at most once.
* `s.cancel()` closes `s.ctx.Done()` and is idempotent.
* `<-s.done` completes when `s.done` is closed. -/
def State.step (s : State) (a : Action) : Option State :=
  if s.crashed then none
  else
    match a with
    | .send e =>
      if s.closed then none else some { s with channel := s.channel ++ [e] }
    | .close =>
      if s.closed then none else some { s with closed := true }
    | .parentCancel => some { s with ctxDone := true }
    | .start => some { s with loops := s.loops ++ [.running] }
    | .loopCancel i =>
      if s.loops[i]? = some .running ∧ s.ctxDone = true then
        if s.done then
          some { s with loops := s.loops.set i .panicked, crashed := true }
        else
          some { s with loops := s.loops.set i .exited, done := true }
      else none
    | .loopRecv i =>
      if s.loops[i]? = some .running then
        match s.channel with
        | [] =>
          if s.closed then some { s with tasks := s.tasks ++ [⟨i, none, .spawned⟩] }
          else none
        | e :: rest =>
          some { s with channel := rest, tasks := s.tasks ++ [⟨i, e, .spawned⟩] }
      else none
    | .taskBegin j =>
      match s.tasks[j]? with
      | some t =>
        if t.status = .spawned then
          some { s with tasks := s.tasks.set j { t with status := .running } }
        else none
      | none => none
    | .taskReturn j =>
      match s.tasks[j]? with
      | some t =>
        if t.status = .running then
          some { s with tasks := s.tasks.set j { t with status := .returned } }
        else none
      | none => none
    | .stopCancel => some { s with ctxDone := true, stops := s.stops ++ [.waiting] }
    | .stopReturn k =>
      if s.stops[k]? = some .waiting ∧ s.done = true then
        some { s with stops := s.stops.set k .returned }
      else none

/-- Running a sequence of actions from a state; `none` when one of them cannot
be taken. -/
def State.exec (s : State) : List Action → Option State
  | [] => some s
  | a :: rest =>
    match s.step a with
    | some s' => s'.exec rest
    | none => none

/-- The values sent on the channel by a sequence of actions, in order. -/
def sends : List Action → List (Option Event)
  | [] => []
  | .send e :: rest => e :: sends rest
  | _ :: rest => sends rest

/-- The values handed to the handler so far, in the order they were received. -/
def State.dispatched (s : State) : List (Option Event) :=
  s.tasks.map Task.evt

/-- The event sent by `TestRunSerfer`, a mock event. -/
def loopTestEvent : Option Event := some (.other "MockEvent" 0)

/-- What holds of every state reachable from `NewSerfer`: `done` is closed
only by a loop that has exited, and only after cancellation; `Stop` returns only
once `done` is closed; a crash takes two loops; a call of `Stop` leaves the
context cancelled. -/
structure State.Inv (s : State) : Prop where
  done_exited : s.crashed = false → s.done = true → LoopStatus.exited ∈ s.loops
  returned_done : StopStatus.returned ∈ s.stops → s.done = true
  crashed_loops : s.crashed = true → 2 ≤ s.loops.length
  done_ctx : s.done = true → s.ctxDone = true
  stops_ctx : s.stops ≠ [] → s.ctxDone = true

/-- An execution with one `Start` and one `Stop`: two events are sent, the
loop receives the first, `Stop` cancels, the loop takes the cancellation case,
`Stop` returns. -/
def runToStop : List Action :=
  [.start, .send loopTestEvent, .send loopTestEvent, .loopRecv 0, .stopCancel,
   .loopCancel 0, .stopReturn 0]

/-- The state `runToStop` ends in: the second event is still on the channel and
the handler of the first has not started. -/
def stateAtStop : State :=
  { channel := [loopTestEvent], closed := false,
    ctxDone := true, done := true, loops := [.exited],
    tasks := [⟨0, loopTestEvent, .spawned⟩], stops := [.returned], crashed := false }

/-- What happens after `runToStop`: the handler of the first event starts, and
the producer sends one more value. -/
def runAfterStop : List Action := [.taskBegin 0, .send none]

/-- The state `runAfterStop` leads to from `stateAtStop`. -/
def stateAfterStop : State :=
  { channel := [loopTestEvent, none], closed := false,
    ctxDone := true, done := true, loops := [.exited],
    tasks := [⟨0, loopTestEvent, .running⟩], stops := [.returned], crashed := false }

/-- An execution in which the handler of the first event starts and never
returns, the second value is received all the same, and `Stop` completes. -/
def runSlowHandler : List Action :=
  [.start, .send loopTestEvent, .loopRecv 0, .send none, .taskBegin 0, .loopRecv 0,
   .stopCancel, .loopCancel 0, .stopReturn 0]

/-- The state `runSlowHandler` ends in. -/
def stateSlowHandler : State :=
  { channel := [], closed := false,
    ctxDone := true, done := true, loops := [.exited],
    tasks := [⟨0, loopTestEvent, .running⟩, ⟨0, none, .spawned⟩], stops := [.returned],
    crashed := false }

/-- An execution with two calls of `Start`: after `Stop` cancels, both loops
take the cancellation case. -/
def runDoubleStart : List Action :=
  [.start, .start, .stopCancel, .loopCancel 0, .loopCancel 1]

/-- The state `runDoubleStart` ends in: the second `close(s.done)` has panicked. -/
def stateDoubleStart : State :=
  { channel := [], closed := false,
    ctxDone := true, done := true, loops := [.exited, .panicked],
    tasks := [], stops := [.waiting], crashed := true }

/-- A state in which the handler of a first event is running, the loop is at
the `select` and another value sits on the channel. -/
def stateHandlerBusy : State :=
  { channel := [none], closed := false,
    ctxDone := false, done := false, loops := [.running],
    tasks := [⟨0, loopTestEvent, .running⟩], stops := [], crashed := false }

/-- An execution on an instance that is never started: a value is sent and
`Stop` is called. -/
def runNeverStarted : List Action := [.send loopTestEvent, .stopCancel]

/-- The state `runNeverStarted` ends in: cancellation is signalled, `done` is
open and `Stop` is waiting. -/
def stateNeverStarted : State :=
  { channel := [loopTestEvent], closed := false,
    ctxDone := true, done := false, loops := [],
    tasks := [], stops := [.waiting], crashed := false }

/-- The state after two calls of `Start` and the `s.cancel()` of a `Stop`: two
loops at the `select`, cancellation signalled, `done` open. -/
def stateTwoLoops : State :=
  { channel := [], closed := false, ctxDone := true, done := false,
    loops := [.running, .running], tasks := [], stops := [.waiting], crashed := false }

/-- An execution in which the producer closes the channel: one event is sent,
the channel is closed, and the loop receives three times. -/
def runClosedChannel : List Action :=
  [.start, .send loopTestEvent, .close, .loopRecv 0, .loopRecv 0, .loopRecv 0]

/-- The state `runClosedChannel` ends in: the event sent has been handed to the
handler, and so has nil, twice, which nobody sent. -/
def stateClosedChannel : State :=
  { channel := [], closed := true, ctxDone := false, done := false, loops := [.running],
    tasks := [⟨0, loopTestEvent, .spawned⟩, ⟨0, none, .spawned⟩, ⟨0, none, .spawned⟩],
    stops := [], crashed := false }

/-! ## Lemmas on the string functions -/

theorem strings.HasPrefix_iff (s pre : String) :
    strings.HasPrefix s pre = true ↔ pre.data <+: s.data := by
  unfold strings.HasPrefix
  rw [Bool.and_eq_true, decide_eq_true_iff, beq_iff_eq, List.prefix_iff_eq_take]
  constructor
  · rintro ⟨_, h⟩
    exact h.symm
  · intro h
    refine ⟨?_, h.symm⟩
    have hl := congrArg List.length h
    rw [List.length_take] at hl
    omega

theorem strings.HasPrefix_append (pre r : String) :
    strings.HasPrefix (pre ++ r) pre = true := by
  rw [strings.HasPrefix_iff, String.data_append]
  exact List.prefix_append _ _

theorem strings.TrimPrefix_append (pre r : String) :
    strings.TrimPrefix (pre ++ r) pre = r := by
  unfold strings.TrimPrefix
  rw [if_pos (strings.HasPrefix_append pre r), String.data_append, List.drop_left]

theorem strings.TrimPrefix_of_not (s pre : String) (h : ¬ pre.data <+: s.data) :
    strings.TrimPrefix s pre = s := by
  unfold strings.TrimPrefix
  rw [if_neg]
  rwa [strings.HasPrefix_iff]

/-! ## Lemmas on runs -/

theorem logCall_some (l : Logger) (lvl : Level) (fmt : String) (arg : LogArg) :
    logCall (some l) lvl fmt arg = ⟨[.Log l lvl fmt arg], none⟩ := rfl

theorem logCall_none (lvl : Level) (fmt : String) (arg : LogArg) :
    logCall none lvl fmt arg = ⟨[], some .nilDereference⟩ := rfl

/-- A user event is handed to `handleUserEvent`. -/
theorem HandleEvent_user (s : SerfEventHandler) (u : UserEvent) :
    s.HandleEvent (some (.user u)) = s.handleUserEvent u := by
  simp [SerfEventHandler.HandleEvent, Event.EventType, Event.assertUserEvent, EventUser,
    EventMemberJoin, EventMemberLeave, EventMemberFailed, EventMemberReap]

/-- The run of `handleUserEvent` on a service event. -/
theorem handleUserEvent_service (s : SerfEventHandler) (u : UserEvent) (r : String)
    (hname : u.Name = s.ServicePrefix ++ ":" ++ r) :
    s.handleUserEvent u =
      (logCall s.Logger .Debug "serfer: user event: %s" (.name r)).andThen
        (match s.UserEvent with
          | some h => Run.call (.HandleUserEvent h { u with Name := r })
          | none => Run.skip) := by
  have hp : s.isServiceEvent u.Name = true := by
    rw [SerfEventHandler.isServiceEvent, hname]
    exact strings.HasPrefix_append _ _
  have hr : s.getRawEventName u.Name = r := by
    rw [SerfEventHandler.getRawEventName, hname]
    exact strings.TrimPrefix_append _ _
  simp only [SerfEventHandler.handleUserEvent, hp, hr, if_true]

/-- The run of `handleUserEvent` on a user event that is not a service event. -/
theorem handleUserEvent_unknown (s : SerfEventHandler) (u : UserEvent)
    (hname : ¬ (s.ServicePrefix ++ ":").data <+: u.Name.data) :
    s.handleUserEvent u =
      (logCall s.Logger .Warn "serfer: unknown event: %v" (.userEvent u)).andThen
        (match s.UnknownEventHandler with
          | some h => Run.call (.HandleUnknownEvent h u)
          | none => Run.skip) := by
  have hp : s.isServiceEvent u.Name = false := by
    rw [SerfEventHandler.isServiceEvent, ← Bool.not_eq_true, strings.HasPrefix_iff]
    exact hname
  simp [SerfEventHandler.handleUserEvent, hp]

/-! ## C1: service user events -/

/-- C1, as stated, fails on a registry whose `Logger` field is nil: with prefix
`"serfer"`, a registered user-event handler and the event named
`"serfer:user-event"`, the call `s.Logger.Debug` panics before the handler is
reached, so `HandleUserEvent` is not invoked at all. -/
theorem c1_nil_logger_counterexample :
    suiteHandlerNoLogger.UserEvent = some ⟨1⟩ ∧
    suiteUserEvent.Name = suiteHandlerNoLogger.ServicePrefix ++ ":" ++ "user-event" ∧
    suiteHandlerNoLogger.HandleEvent (some (.user suiteUserEvent)) =
      ⟨[], some .nilDereference⟩ ∧
    (suiteHandlerNoLogger.HandleEvent (some (.user suiteUserEvent))).handlerCalls ≠
      [.HandleUserEvent ⟨1⟩ { suiteUserEvent with Name := "user-event" }] := by
  decide

/-- C1 (amended): for every user event `u` whose name is `p ++ ":" ++ r`, where
`p` is the registry's `ServicePrefix`, `HandleEvent` on a registry with a
registered user-event handler and a non-nil `Logger` logs the stripped name at
debug level, then invokes `HandleUserEvent` exactly once, with `u` in which only
`Name` is replaced by `r`; it invokes no other handler and returns. -/
theorem c1_service_user_event (s : SerfEventHandler) (u : UserEvent) (r : String)
    (h : Handler) (l : Logger)
    (hname : u.Name = s.ServicePrefix ++ ":" ++ r)
    (hslot : s.UserEvent = some h) (hlog : s.Logger = some l) :
    s.HandleEvent (some (.user u)) =
      ⟨[.Log l .Debug "serfer: user event: %s" (.name r),
        .HandleUserEvent h { u with Name := r }], none⟩ ∧
    (s.HandleEvent (some (.user u))).handlerCalls =
      [.HandleUserEvent h { u with Name := r }] := by
  have hrun : s.HandleEvent (some (.user u)) =
      ⟨[.Log l .Debug "serfer: user event: %s" (.name r),
        .HandleUserEvent h { u with Name := r }], none⟩ := by
    rw [HandleEvent_user, handleUserEvent_service s u r hname, hslot, hlog]
    rfl
  refine ⟨hrun, ?_⟩
  rw [hrun]
  rfl

/-- Witness of C1: prefix `"serfer"`, name `"serfer:user-event"` is delivered
as `"user-event"`. -/
theorem c1_service_user_event_witness :
    suiteHandler.HandleEvent (some (.user suiteUserEvent)) =
      ⟨[.Log ⟨0⟩ .Debug "serfer: user event: %s" (.name "user-event"),
        .HandleUserEvent ⟨1⟩ { suiteUserEvent with Name := "user-event" }], none⟩ ∧
    (suiteHandler.HandleEvent (some (.user suiteUserEvent))).handlerCalls =
      [.HandleUserEvent ⟨1⟩ { suiteUserEvent with Name := "user-event" }] :=
  c1_service_user_event suiteHandler suiteUserEvent "user-event" ⟨1⟩ ⟨0⟩
    (by decide) rfl rfl

/-! ## C2: user events outside the service namespace -/

/-- C2, as stated, fails on a registry whose `Logger` field is nil: with prefix
`"serfer"`, a registered unknown-event handler and the event named `"unk"`, the
call `s.Logger.Warn` panics before the handler is reached, so
`HandleUnknownEvent` is not invoked at all. -/
theorem c2_nil_logger_counterexample :
    suiteHandlerNoLogger.UnknownEventHandler = some ⟨1⟩ ∧
    ¬ (suiteHandlerNoLogger.ServicePrefix ++ ":").data <+: suiteUnknownUserEvent.Name.data ∧
    suiteHandlerNoLogger.HandleEvent (some (.user suiteUnknownUserEvent)) =
      ⟨[], some .nilDereference⟩ ∧
    (suiteHandlerNoLogger.HandleEvent (some (.user suiteUnknownUserEvent))).handlerCalls ≠
      [.HandleUnknownEvent ⟨1⟩ suiteUnknownUserEvent] := by
  decide

/-- C2 (amended): for every user event `u` whose name does not begin with
`p ++ ":"`, where `p` is the registry's `ServicePrefix`, `HandleEvent` on a
registry with a registered unknown-event handler and a non-nil `Logger` logs the
event at warning level, then invokes `HandleUnknownEvent` exactly once with `u`
unmodified; it never invokes the user-event handler, and returns. -/
theorem c2_unknown_user_event (s : SerfEventHandler) (u : UserEvent)
    (h : Handler) (l : Logger)
    (hname : ¬ (s.ServicePrefix ++ ":").data <+: u.Name.data)
    (hslot : s.UnknownEventHandler = some h) (hlog : s.Logger = some l) :
    s.HandleEvent (some (.user u)) =
      ⟨[.Log l .Warn "serfer: unknown event: %v" (.userEvent u),
        .HandleUnknownEvent h u], none⟩ ∧
    (s.HandleEvent (some (.user u))).handlerCalls = [.HandleUnknownEvent h u] ∧
    ∀ (h' : Handler) (u' : UserEvent),
      Effect.HandleUserEvent h' u' ∉ (s.HandleEvent (some (.user u))).trace := by
  have hrun : s.HandleEvent (some (.user u)) =
      ⟨[.Log l .Warn "serfer: unknown event: %v" (.userEvent u),
        .HandleUnknownEvent h u], none⟩ := by
    rw [HandleEvent_user, handleUserEvent_unknown s u hname, hslot, hlog]
    rfl
  refine ⟨hrun, ?_, ?_⟩
  · rw [hrun]
    rfl
  · intro h' u'
    rw [hrun]
    simp

/-- Witness of C2: prefix `"serfer"`, name `"unk"` is delivered to the
unknown-event handler as `"unk"`. -/
theorem c2_unknown_user_event_witness :
    suiteHandler.HandleEvent (some (.user suiteUnknownUserEvent)) =
      ⟨[.Log ⟨0⟩ .Warn "serfer: unknown event: %v" (.userEvent suiteUnknownUserEvent),
        .HandleUnknownEvent ⟨1⟩ suiteUnknownUserEvent], none⟩ ∧
    (suiteHandler.HandleEvent (some (.user suiteUnknownUserEvent))).handlerCalls =
      [.HandleUnknownEvent ⟨1⟩ suiteUnknownUserEvent] ∧
    ∀ (h' : Handler) (u' : UserEvent),
      Effect.HandleUserEvent h' u' ∉
        (suiteHandler.HandleEvent (some (.user suiteUnknownUserEvent))).trace :=
  c2_unknown_user_event suiteHandler suiteUnknownUserEvent ⟨1⟩ ⟨0⟩ (by decide) rfl rfl

/-! ## Lemmas on the arms of the switch -/

theorem HandleEvent_join (s : SerfEventHandler) (e : Event)
    (ht : e.EventType = EventMemberJoin) :
    s.HandleEvent (some e) = guarded s.NodeJoined e.assertMemberEvent .HandleMemberJoin := by
  simp [SerfEventHandler.HandleEvent, ht]

theorem HandleEvent_leave (s : SerfEventHandler) (e : Event)
    (ht : e.EventType = EventMemberLeave) :
    s.HandleEvent (some e) = guarded s.NodeLeft e.assertMemberEvent .HandleMemberLeave := by
  simp [SerfEventHandler.HandleEvent, ht, EventMemberJoin, EventMemberLeave]

theorem HandleEvent_failed (s : SerfEventHandler) (e : Event)
    (ht : e.EventType = EventMemberFailed) :
    s.HandleEvent (some e) =
      guarded s.NodeFailed e.assertMemberEvent .HandleMemberFailure := by
  simp [SerfEventHandler.HandleEvent, ht, EventMemberJoin, EventMemberLeave,
    EventMemberFailed]

theorem HandleEvent_reap (s : SerfEventHandler) (e : Event)
    (ht : e.EventType = EventMemberReap) :
    s.HandleEvent (some e) = guarded s.NodeReaped e.assertMemberEvent .HandleMemberReap := by
  simp [SerfEventHandler.HandleEvent, ht, EventMemberJoin, EventMemberLeave,
    EventMemberFailed, EventMemberReap]

theorem HandleEvent_update (s : SerfEventHandler) (e : Event)
    (ht : e.EventType = EventMemberUpdate) :
    s.HandleEvent (some e) =
      guarded s.NodeUpdated e.assertMemberEvent .HandleMemberUpdate := by
  simp [SerfEventHandler.HandleEvent, ht, EventMemberJoin, EventMemberLeave,
    EventMemberFailed, EventMemberReap, EventUser, EventMemberUpdate]

theorem HandleEvent_query (s : SerfEventHandler) (e : Event)
    (ht : e.EventType = EventQuery) :
    s.HandleEvent (some e) = guarded s.QueryHandler e.assertDerefQuery .HandleQueryEvent := by
  simp [SerfEventHandler.HandleEvent, ht, EventMemberJoin, EventMemberLeave,
    EventMemberFailed, EventMemberReap, EventUser, EventMemberUpdate, EventQuery]

theorem guarded_none {α : Type} (conv : Except Panic α) (method : Handler → α → Effect) :
    guarded none conv method = ⟨[], none⟩ := rfl

theorem guarded_some_ok {α : Type} (h : Handler) (x : α) (method : Handler → α → Effect) :
    guarded (some h) (.ok x) method = ⟨[method h x], none⟩ := rfl

/-! ## C3: known kinds with a registered handler -/

/-- C3: for every event of a known non-user kind whose registry slot holds a
handler `h`, `HandleEvent` makes exactly one call, the method of that kind on
`h`, with the event's own payload (the member event itself, or the query the
event points to), makes no other call, and returns. -/
theorem c3_registered_handler (s : SerfEventHandler) (h : Handler) :
    (∀ m : MemberEvent, m.Typ = EventMemberJoin → s.NodeJoined = some h →
      s.HandleEvent (some (.member m)) = ⟨[.HandleMemberJoin h m], none⟩) ∧
    (∀ m : MemberEvent, m.Typ = EventMemberLeave → s.NodeLeft = some h →
      s.HandleEvent (some (.member m)) = ⟨[.HandleMemberLeave h m], none⟩) ∧
    (∀ m : MemberEvent, m.Typ = EventMemberFailed → s.NodeFailed = some h →
      s.HandleEvent (some (.member m)) = ⟨[.HandleMemberFailure h m], none⟩) ∧
    (∀ m : MemberEvent, m.Typ = EventMemberUpdate → s.NodeUpdated = some h →
      s.HandleEvent (some (.member m)) = ⟨[.HandleMemberUpdate h m], none⟩) ∧
    (∀ m : MemberEvent, m.Typ = EventMemberReap → s.NodeReaped = some h →
      s.HandleEvent (some (.member m)) = ⟨[.HandleMemberReap h m], none⟩) ∧
    (∀ q : Query, s.QueryHandler = some h →
      s.HandleEvent (some (.query (some q))) = ⟨[.HandleQueryEvent h q], none⟩) := by
  refine ⟨?_, ?_, ?_, ?_, ?_, ?_⟩
  · intro m ht hs
    rw [HandleEvent_join s (.member m) ht, hs]
    rfl
  · intro m ht hs
    rw [HandleEvent_leave s (.member m) ht, hs]
    rfl
  · intro m ht hs
    rw [HandleEvent_failed s (.member m) ht, hs]
    rfl
  · intro m ht hs
    rw [HandleEvent_update s (.member m) ht, hs]
    rfl
  · intro m ht hs
    rw [HandleEvent_reap s (.member m) ht, hs]
    rfl
  · intro q hs
    rw [HandleEvent_query s (.query (some q)) rfl, hs]
    rfl

/-- Witness of C3: the join event of `TestNodeJoined` and the query of
`TestQueryEvent` on the registry of the test suite. -/
theorem c3_registered_handler_witness :
    suiteHandler.HandleEvent (some (.member ⟨EventMemberJoin, [suiteMember]⟩)) =
      ⟨[.HandleMemberJoin ⟨1⟩ ⟨EventMemberJoin, [suiteMember]⟩], none⟩ ∧
    suiteHandler.HandleEvent (some (.query (some ⟨0, "Event", []⟩))) =
      ⟨[.HandleQueryEvent ⟨1⟩ ⟨0, "Event", []⟩], none⟩ :=
  ⟨(c3_registered_handler suiteHandler ⟨1⟩).1 ⟨EventMemberJoin, [suiteMember]⟩ rfl rfl,
   (c3_registered_handler suiteHandler ⟨1⟩).2.2.2.2.2 ⟨0, "Event", []⟩ rfl⟩

/-! ## C4: known kinds with an empty slot -/

/-- C4, as stated, fails on a registry whose `Logger` field is nil: on the
registry with every slot empty, the user event named `"unk"` (whose slot, the
unknown-event handler, is empty) makes `HandleEvent` panic at `s.Logger.Warn`
instead of completing. -/
theorem c4_nil_logger_counterexample :
    bareHandler.UnknownEventHandler = none ∧
    ¬ (bareHandler.ServicePrefix ++ ":").data <+: suiteUnknownUserEvent.Name.data ∧
    bareHandler.HandleEvent (some (.user suiteUnknownUserEvent)) =
      ⟨[], some .nilDereference⟩ ∧
    (bareHandler.HandleEvent (some (.user suiteUnknownUserEvent))).panic ≠ none := by
  decide

/-- C4 (amended): for every event of a member or query kind whose registry slot
is empty, `HandleEvent` makes no call at all and returns; for every user event
whose slot is empty (the user-event handler for a service event, the
unknown-event handler otherwise), on a registry with a non-nil `Logger`,
`HandleEvent` makes no handler invocation and returns. -/
theorem c4_empty_slot (s : SerfEventHandler) :
    (∀ e : Event, e.EventType = EventMemberJoin → s.NodeJoined = none →
      s.HandleEvent (some e) = ⟨[], none⟩) ∧
    (∀ e : Event, e.EventType = EventMemberLeave → s.NodeLeft = none →
      s.HandleEvent (some e) = ⟨[], none⟩) ∧
    (∀ e : Event, e.EventType = EventMemberFailed → s.NodeFailed = none →
      s.HandleEvent (some e) = ⟨[], none⟩) ∧
    (∀ e : Event, e.EventType = EventMemberUpdate → s.NodeUpdated = none →
      s.HandleEvent (some e) = ⟨[], none⟩) ∧
    (∀ e : Event, e.EventType = EventMemberReap → s.NodeReaped = none →
      s.HandleEvent (some e) = ⟨[], none⟩) ∧
    (∀ e : Event, e.EventType = EventQuery → s.QueryHandler = none →
      s.HandleEvent (some e) = ⟨[], none⟩) ∧
    (∀ (u : UserEvent) (r : String) (l : Logger), s.Logger = some l →
      u.Name = s.ServicePrefix ++ ":" ++ r → s.UserEvent = none →
      (s.HandleEvent (some (.user u))).handlerCalls = [] ∧
      (s.HandleEvent (some (.user u))).panic = none) ∧
    (∀ (u : UserEvent) (l : Logger), s.Logger = some l →
      ¬ (s.ServicePrefix ++ ":").data <+: u.Name.data → s.UnknownEventHandler = none →
      (s.HandleEvent (some (.user u))).handlerCalls = [] ∧
      (s.HandleEvent (some (.user u))).panic = none) := by
  refine ⟨?_, ?_, ?_, ?_, ?_, ?_, ?_, ?_⟩
  · intro e ht hs
    rw [HandleEvent_join s e ht, hs, guarded_none]
  · intro e ht hs
    rw [HandleEvent_leave s e ht, hs, guarded_none]
  · intro e ht hs
    rw [HandleEvent_failed s e ht, hs, guarded_none]
  · intro e ht hs
    rw [HandleEvent_update s e ht, hs, guarded_none]
  · intro e ht hs
    rw [HandleEvent_reap s e ht, hs, guarded_none]
  · intro e ht hs
    rw [HandleEvent_query s e ht, hs, guarded_none]
  · intro u r l hl hname hs
    rw [HandleEvent_user, handleUserEvent_service s u r hname, hs, hl]
    exact ⟨rfl, rfl⟩
  · intro u l hl hname hs
    rw [HandleEvent_user, handleUserEvent_unknown s u hname, hs, hl]
    exact ⟨rfl, rfl⟩

/-- Witness of C4: on a registry with a logger and no handler, the join event
of the test suite and the user event `"unk"` reach no handler. -/
theorem c4_empty_slot_witness :
    bareHandlerWithLogger.HandleEvent
        (some (.member ⟨EventMemberJoin, [suiteMember]⟩)) = ⟨[], none⟩ ∧
    (bareHandlerWithLogger.HandleEvent
        (some (.user suiteUnknownUserEvent))).handlerCalls = [] ∧
    (bareHandlerWithLogger.HandleEvent
        (some (.user suiteUnknownUserEvent))).panic = none :=
  ⟨(c4_empty_slot bareHandlerWithLogger).1
      (.member ⟨EventMemberJoin, [suiteMember]⟩) rfl rfl,
   (c4_empty_slot bareHandlerWithLogger).2.2.2.2.2.2.2
      suiteUnknownUserEvent ⟨0⟩ rfl (by decide) rfl⟩

/-! ## C5: the nil event -/

/-- C5: for every registry, `HandleEvent(nil)` is a no-op: it returns having
made no call, neither on a handler nor on the logger. -/
theorem c5_nil_event (s : SerfEventHandler) :
    s.HandleEvent none = ⟨[], none⟩ ∧
    (s.HandleEvent none).handlerCalls = [] ∧
    (s.HandleEvent none).logCalls = [] :=
  ⟨rfl, rfl, rfl⟩

/-! ## C6: event types outside the known set -/

/-- The default arm of the switch. -/
theorem HandleEvent_default (s : SerfEventHandler) (e : Event)
    (ht : e.EventType ∉ knownEventTypes) :
    s.HandleEvent (some e) = logCall s.Logger .Warn "unhandled Serf Event: %#v" (.event e) := by
  simp only [knownEventTypes, List.mem_cons, List.mem_singleton, List.not_mem_nil,
    not_or, or_false] at ht
  obtain ⟨h0, h1, h2, h3, h4, h5, h6⟩ := ht
  simp [SerfEventHandler.HandleEvent, h0, h1, h2, h3, h4, h5, h6]

/-- C6, as stated, fails on a registry whose `Logger` field is nil: for the mock
event of type `serf.EventType(-1)` the call `s.Logger.Warn` of the default arm
panics, and no log message is emitted. -/
theorem c6_nil_logger_counterexample :
    suiteMockEvent.EventType ∉ knownEventTypes ∧
    suiteHandlerNoLogger.HandleEvent (some suiteMockEvent) = ⟨[], some .nilDereference⟩ ∧
    (suiteHandlerNoLogger.HandleEvent (some suiteMockEvent)).logCalls = [] := by
  decide

/-- C6 (amended): for every event whose `EventType()` is outside the known set
and every registry with a non-nil `Logger`, `HandleEvent` invokes no handler,
makes exactly one log call, at warning level, and returns. -/
theorem c6_unknown_kind (s : SerfEventHandler) (e : Event) (l : Logger)
    (ht : e.EventType ∉ knownEventTypes) (hlog : s.Logger = some l) :
    s.HandleEvent (some e) = ⟨[.Log l .Warn "unhandled Serf Event: %#v" (.event e)], none⟩ ∧
    (s.HandleEvent (some e)).handlerCalls = [] ∧
    (s.HandleEvent (some e)).logCalls =
      [.Log l .Warn "unhandled Serf Event: %#v" (.event e)] := by
  have hrun : s.HandleEvent (some e) =
      ⟨[.Log l .Warn "unhandled Serf Event: %#v" (.event e)], none⟩ := by
    rw [HandleEvent_default s e ht, hlog]
    rfl
  rw [hrun]
  exact ⟨rfl, rfl, rfl⟩

/-- Witness of C6: the event of type `serf.EventType(-1)` of `TestUnknownEvent`. -/
theorem c6_unknown_kind_witness :
    suiteHandler.HandleEvent (some suiteMockEvent) =
      ⟨[.Log ⟨0⟩ .Warn "unhandled Serf Event: %#v" (.event suiteMockEvent)], none⟩ ∧
    (suiteHandler.HandleEvent (some suiteMockEvent)).handlerCalls = [] ∧
    (suiteHandler.HandleEvent (some suiteMockEvent)).logCalls =
      [.Log ⟨0⟩ .Warn "unhandled Serf Event: %#v" (.event suiteMockEvent)] :=
  c6_unknown_kind suiteHandler suiteMockEvent ⟨0⟩ (by decide) rfl

/-! ## C7: reap events are passed through -/

/-- C7: for every member-reap event `m` and every registry with a registered
reap handler, the only call of `HandleEvent` is `HandleMemberReap` with `m`
itself: the member event delivered has the same member list, with the same
statuses, so no member becomes `StatusReap` that was not already. -/
theorem c7_reap_unmodified (s : SerfEventHandler) (m : MemberEvent) (h : Handler)
    (ht : m.Typ = EventMemberReap) (hslot : s.NodeReaped = some h) :
    s.HandleEvent (some (.member m)) = ⟨[.HandleMemberReap h m], none⟩ ∧
    ∀ (h' : Handler) (m' : MemberEvent),
      Effect.HandleMemberReap h' m' ∈ (s.HandleEvent (some (.member m))).trace →
      m' = m ∧ m'.Members = m.Members ∧
      m'.Members.map Member.Status = m.Members.map Member.Status ∧
      ((∀ x ∈ m.Members, x.Status ≠ StatusReap) →
        ∀ x ∈ m'.Members, x.Status ≠ StatusReap) := by
  have hrun : s.HandleEvent (some (.member m)) = ⟨[.HandleMemberReap h m], none⟩ := by
    rw [HandleEvent_reap s (.member m) ht, hslot]
    rfl
  refine ⟨hrun, ?_⟩
  intro h' m' hmem
  rw [hrun] at hmem
  simp only [List.mem_singleton, Effect.HandleMemberReap.injEq] at hmem
  obtain ⟨_, rfl⟩ := hmem
  exact ⟨rfl, rfl, rfl, fun hx => hx⟩

/-- Witness of C7: the reap event of `TestNodeReaped`, whose member is alive,
is delivered as it is. -/
theorem c7_reap_unmodified_witness :
    suiteHandler.HandleEvent (some (.member suiteReapEvent)) =
      ⟨[.HandleMemberReap ⟨1⟩ suiteReapEvent], none⟩ ∧
    ∀ (h' : Handler) (m' : MemberEvent),
      Effect.HandleMemberReap h' m' ∈
        (suiteHandler.HandleEvent (some (.member suiteReapEvent))).trace →
      m' = suiteReapEvent ∧ m'.Members = suiteReapEvent.Members ∧
      m'.Members.map Member.Status = suiteReapEvent.Members.map Member.Status ∧
      ((∀ x ∈ suiteReapEvent.Members, x.Status ≠ StatusReap) →
        ∀ x ∈ m'.Members, x.Status ≠ StatusReap) :=
  c7_reap_unmodified suiteHandler suiteReapEvent ⟨1⟩ rfl rfl

/-! ## C8: the conversions of the event -/

/-- C8, as stated, fails: the conversions are unchecked, and the logger is
called without a nil guard. On the registry of the test suite, a
`serf.MemberEvent` whose `Type` is `EventUser` fails `e.(serf.UserEvent)`, a
mock event reporting `EventMemberJoin` fails `e.(serf.MemberEvent)`, and a nil
`*serf.Query` fails on the dereference; on a registry with a nil `Logger`, a
user event panics at the log call. All four events are non-nil and report a
known event type. -/
theorem c8_conversion_counterexample :
    (Event.member ⟨EventUser, [suiteMember]⟩).EventType ∈ knownEventTypes ∧
    suiteHandler.HandleEvent (some (.member ⟨EventUser, [suiteMember]⟩)) =
      ⟨[], some .typeAssertion⟩ ∧
    (Event.other "MockEvent" EventMemberJoin).EventType ∈ knownEventTypes ∧
    suiteHandler.HandleEvent (some (.other "MockEvent" EventMemberJoin)) =
      ⟨[], some .typeAssertion⟩ ∧
    (Event.query none).EventType ∈ knownEventTypes ∧
    suiteHandler.HandleEvent (some (.query none)) = ⟨[], some .nilDereference⟩ ∧
    (Event.user suiteUserEvent).EventType ∈ knownEventTypes ∧
    suiteHandlerNoLogger.HandleEvent (some (.user suiteUserEvent)) =
      ⟨[], some .nilDereference⟩ := by
  decide

/-- C8 (amended): for every registry and every non-nil event that reports a
known `EventType()` and whose concrete value is the one the conversion of that
kind expects (a `serf.MemberEvent` for the five member kinds, a `serf.UserEvent`
for `EventUser`, a non-nil `*serf.Query` for `EventQuery`), `HandleEvent`
returns normally, provided the `Logger` is non-nil when the event is a user
event. -/
theorem c8_returns_normally (s : SerfEventHandler) (e : Event)
    (hknown : e.EventType ∈ knownEventTypes) (hkind : e.matchesKind = true)
    (hlog : e.isUser = true → s.Logger ≠ none) :
    (s.HandleEvent (some e)).panic = none := by
  cases e with
  | member m =>
    simp only [Event.matchesKind, memberEventTypes, decide_eq_true_eq, List.mem_cons,
      List.mem_singleton, List.not_mem_nil, or_false] at hkind
    rcases hkind with ht | ht | ht | ht | ht
    · rw [HandleEvent_join s (.member m) ht]
      cases s.NodeJoined <;> rfl
    · rw [HandleEvent_leave s (.member m) ht]
      cases s.NodeLeft <;> rfl
    · rw [HandleEvent_failed s (.member m) ht]
      cases s.NodeFailed <;> rfl
    · rw [HandleEvent_update s (.member m) ht]
      cases s.NodeUpdated <;> rfl
    · rw [HandleEvent_reap s (.member m) ht]
      cases s.NodeReaped <;> rfl
  | user u =>
    obtain ⟨l, hl⟩ := Option.ne_none_iff_exists'.mp (hlog rfl)
    rw [HandleEvent_user]
    simp only [SerfEventHandler.handleUserEvent, hl]
    split_ifs
    · cases s.UserEvent <;> rfl
    · cases s.UnknownEventHandler <;> rfl
  | query q =>
    cases q with
    | none => simp [Event.matchesKind] at hkind
    | some q =>
      rw [HandleEvent_query s (.query (some q)) rfl]
      cases s.QueryHandler <;> rfl
  | other d t => simp [Event.matchesKind] at hkind

/-- Witness of C8: the user event of `TestUserEvent` on the registry of the
test suite. -/
theorem c8_returns_normally_witness :
    (suiteHandler.HandleEvent (some (.user suiteUserEvent))).panic = none :=
  c8_returns_normally suiteHandler (.user suiteUserEvent) (by decide) rfl
    (fun _ => by decide)

/-! ## C9: the logger and the dispatch outcome -/

/-- C9, as stated, fails when one of the two loggers is nil: the registry of
the test suite and the same registry with a nil `Logger` differ only in that
field, yet on the event `"serfer:user-event"` the first invokes
`HandleUserEvent` and the second panics at `s.Logger.Debug` and invokes
nothing. -/
theorem c9_nil_logger_counterexample :
    suiteHandlerNoLogger = { suiteHandler with Logger := none } ∧
    (suiteHandler.HandleEvent (some (.user suiteUserEvent))).handlerCalls =
      [.HandleUserEvent ⟨1⟩ { suiteUserEvent with Name := "user-event" }] ∧
    (suiteHandlerNoLogger.HandleEvent (some (.user suiteUserEvent))).handlerCalls = [] ∧
    (suiteHandler.HandleEvent (some (.user suiteUserEvent))).handlerCalls ≠
      (suiteHandlerNoLogger.HandleEvent (some (.user suiteUserEvent))).handlerCalls := by
  decide

/-- The handler invocations and the panic of a log call on a non-nil logger. -/
theorem logCall_some_andThen (l : Logger) (lvl : Level) (fmt : String) (arg : LogArg)
    (b : Run) :
    ((logCall (some l) lvl fmt arg).andThen b).handlerCalls = b.handlerCalls ∧
    ((logCall (some l) lvl fmt arg).andThen b).panic = b.panic :=
  ⟨rfl, rfl⟩

/-- C9 (amended): for every event (or the nil event) and every two registries
that differ only in the `Logger` field, both holding a non-nil logger,
`HandleEvent` makes the same handler invocations with the same payloads, and
ends the same way. -/
theorem c9_logger_independent (s : SerfEventHandler) (l₁ l₂ : Logger) (e : Option Event) :
    (({ s with Logger := some l₁ } : SerfEventHandler).HandleEvent e).handlerCalls =
      (({ s with Logger := some l₂ } : SerfEventHandler).HandleEvent e).handlerCalls ∧
    (({ s with Logger := some l₁ } : SerfEventHandler).HandleEvent e).panic =
      (({ s with Logger := some l₂ } : SerfEventHandler).HandleEvent e).panic := by
  cases e with
  | none => exact ⟨rfl, rfl⟩
  | some e =>
    cases e with
    | user u =>
      simp only [HandleEvent_user, SerfEventHandler.handleUserEvent,
        SerfEventHandler.isServiceEvent, SerfEventHandler.getRawEventName]
      split_ifs
      · simp only [logCall_some_andThen, and_self]
      · simp only [logCall_some_andThen, and_self]
    | member m =>
      simp only [SerfEventHandler.HandleEvent]
      split_ifs
      all_goals exact ⟨rfl, rfl⟩
    | query q =>
      simp only [SerfEventHandler.HandleEvent]
      split_ifs
      all_goals exact ⟨rfl, rfl⟩
    | other d t =>
      simp only [SerfEventHandler.HandleEvent]
      split_ifs
      all_goals exact ⟨rfl, rfl⟩

/-! ## C10: logging when the handler slot is empty -/

/-- C10, as stated, fails for user events: on the registry with a logger and
every handler slot empty, the user event `"unk"` (no unknown-event handler) is
logged at warning level, and the service event `"serfer:user-event"` (no
user-event handler) at debug level. -/
theorem c10_user_event_logged_counterexample :
    bareHandlerWithLogger.UnknownEventHandler = none ∧
    bareHandlerWithLogger.UserEvent = none ∧
    (bareHandlerWithLogger.HandleEvent (some (.user suiteUnknownUserEvent))).logCalls =
      [.Log ⟨0⟩ .Warn "serfer: unknown event: %v" (.userEvent suiteUnknownUserEvent)] ∧
    (bareHandlerWithLogger.HandleEvent (some (.user suiteUserEvent))).logCalls =
      [.Log ⟨0⟩ .Debug "serfer: user event: %s" (.name "user-event")] ∧
    (bareHandlerWithLogger.HandleEvent (some (.user suiteUnknownUserEvent))).logCalls ≠ [] ∧
    (bareHandlerWithLogger.HandleEvent (some (.user suiteUserEvent))).logCalls ≠ [] := by
  decide

/-- C10 (amended): for every event of a member or query kind whose handler slot
is empty, `HandleEvent` makes no log call. A user event is logged whatever its
handler slot holds: on a registry with a non-nil `Logger`, `HandleEvent` makes
exactly one log call, at debug level with the stripped name for a service
event, at warning level with the event itself for any other user event. -/
theorem c10_log_calls (s : SerfEventHandler) :
    (∀ e : Event, e.EventType = EventMemberJoin → s.NodeJoined = none →
      (s.HandleEvent (some e)).logCalls = []) ∧
    (∀ e : Event, e.EventType = EventMemberLeave → s.NodeLeft = none →
      (s.HandleEvent (some e)).logCalls = []) ∧
    (∀ e : Event, e.EventType = EventMemberFailed → s.NodeFailed = none →
      (s.HandleEvent (some e)).logCalls = []) ∧
    (∀ e : Event, e.EventType = EventMemberUpdate → s.NodeUpdated = none →
      (s.HandleEvent (some e)).logCalls = []) ∧
    (∀ e : Event, e.EventType = EventMemberReap → s.NodeReaped = none →
      (s.HandleEvent (some e)).logCalls = []) ∧
    (∀ e : Event, e.EventType = EventQuery → s.QueryHandler = none →
      (s.HandleEvent (some e)).logCalls = []) ∧
    (∀ (u : UserEvent) (r : String) (l : Logger), s.Logger = some l →
      u.Name = s.ServicePrefix ++ ":" ++ r →
      (s.HandleEvent (some (.user u))).logCalls =
        [.Log l .Debug "serfer: user event: %s" (.name r)]) ∧
    (∀ (u : UserEvent) (l : Logger), s.Logger = some l →
      ¬ (s.ServicePrefix ++ ":").data <+: u.Name.data →
      (s.HandleEvent (some (.user u))).logCalls =
        [.Log l .Warn "serfer: unknown event: %v" (.userEvent u)]) := by
  refine ⟨?_, ?_, ?_, ?_, ?_, ?_, ?_, ?_⟩
  · intro e ht hs
    rw [HandleEvent_join s e ht, hs, guarded_none]
    rfl
  · intro e ht hs
    rw [HandleEvent_leave s e ht, hs, guarded_none]
    rfl
  · intro e ht hs
    rw [HandleEvent_failed s e ht, hs, guarded_none]
    rfl
  · intro e ht hs
    rw [HandleEvent_update s e ht, hs, guarded_none]
    rfl
  · intro e ht hs
    rw [HandleEvent_reap s e ht, hs, guarded_none]
    rfl
  · intro e ht hs
    rw [HandleEvent_query s e ht, hs, guarded_none]
    rfl
  · intro u r l hl hname
    rw [HandleEvent_user, handleUserEvent_service s u r hname, hl]
    cases s.UserEvent <;> rfl
  · intro u l hl hname
    rw [HandleEvent_user, handleUserEvent_unknown s u hname, hl]
    cases s.UnknownEventHandler <;> rfl

/-- Witness of C10: on the registry with a logger and every handler slot empty,
the join event of the test suite is not logged and the user event `"unk"` is
logged once, at warning level. -/
theorem c10_log_calls_witness :
    (bareHandlerWithLogger.HandleEvent
      (some (.member ⟨EventMemberJoin, [suiteMember]⟩))).logCalls = [] ∧
    (bareHandlerWithLogger.HandleEvent (some (.user suiteUnknownUserEvent))).logCalls =
      [.Log ⟨0⟩ .Warn "serfer: unknown event: %v" (.userEvent suiteUnknownUserEvent)] :=
  ⟨(c10_log_calls bareHandlerWithLogger).1
      (.member ⟨EventMemberJoin, [suiteMember]⟩) rfl rfl,
   (c10_log_calls bareHandlerWithLogger).2.2.2.2.2.2.2
      suiteUnknownUserEvent ⟨0⟩ rfl (by decide)⟩


theorem mem_set_of_getElem? {α : Type} (l : List α) (i : Nat) (x y : α)
    (h : l[i]? = some x) : y ∈ l.set i y := by
  induction l generalizing i with
  | nil => simp at h
  | cons a t ih =>
    cases i with
    | zero => simp
    | succ n =>
      simp only [List.getElem?_cons_succ] at h
      simp only [List.set_cons_succ, List.mem_cons]
      exact Or.inr (ih n h)

theorem two_le_length_of_mem_of_getElem? {α : Type} (l : List α) (i : Nat) (x y : α)
    (hx : x ∈ l) (hy : l[i]? = some y) (hne : x ≠ y) : 2 ≤ l.length := by
  match l, i with
  | [], _ => simp at hx
  | [a], 0 =>
    simp at hx hy
    exact absurd (hx.trans hy) hne
  | [a], n + 1 => simp at hy
  | _ :: _ :: _, _ => simp

theorem map_evt_set (l : List Task) (j : Nat) (t : Task) (st : TaskStatus)
    (h : l[j]? = some t) :
    (l.set j { t with status := st }).map Task.evt = l.map Task.evt := by
  induction l generalizing j with
  | nil => simp
  | cons a r ih =>
    cases j with
    | zero =>
      simp only [List.getElem?_cons_zero, Option.some.injEq] at h
      subst h
      simp
    | succ n =>
      simp only [List.getElem?_cons_succ] at h
      simp only [List.set_cons_succ, List.map_cons, ih n h]

/-- A step is taken only by a program that has not crashed. -/
theorem step_not_crashed {s s' : State} {a : Action} (h : s.step a = some s') :
    s.crashed = false := by
  cases hc : s.crashed with
  | false => rfl
  | true => simp [State.step, hc] at h

/-- Inversion of `step`: the action taken, what made it possible, and the state
it leads to. -/
theorem step_cases {s s' : State} {a : Action} (h : s.step a = some s') :
    (∃ e, a = .send e ∧ s.closed = false ∧ s' = { s with channel := s.channel ++ [e] }) ∨
    (a = .parentCancel ∧ s' = { s with ctxDone := true }) ∨
    (a = .start ∧ s' = { s with loops := s.loops ++ [.running] }) ∨
    (∃ i, a = .loopCancel i ∧ s.loops[i]? = some .running ∧ s.ctxDone = true ∧
      s.done = true ∧ s' = { s with loops := s.loops.set i .panicked, crashed := true }) ∨
    (∃ i, a = .loopCancel i ∧ s.loops[i]? = some .running ∧ s.ctxDone = true ∧
      s.done = false ∧ s' = { s with loops := s.loops.set i .exited, done := true }) ∨
    (∃ i e rest, a = .loopRecv i ∧ s.loops[i]? = some .running ∧ s.channel = e :: rest ∧
      s' = { s with channel := rest, tasks := s.tasks ++ [⟨i, e, .spawned⟩] }) ∨
    (∃ j t, a = .taskBegin j ∧ s.tasks[j]? = some t ∧ t.status = .spawned ∧
      s' = { s with tasks := s.tasks.set j { t with status := .running } }) ∨
    (∃ j t, a = .taskReturn j ∧ s.tasks[j]? = some t ∧ t.status = .running ∧
      s' = { s with tasks := s.tasks.set j { t with status := .returned } }) ∨
    (a = .stopCancel ∧ s' = { s with ctxDone := true, stops := s.stops ++ [.waiting] }) ∨
    (∃ k, a = .stopReturn k ∧ s.stops[k]? = some .waiting ∧ s.done = true ∧
      s' = { s with stops := s.stops.set k .returned }) ∨
    (a = .close ∧ s.closed = false ∧ s' = { s with closed := true }) ∨
    (∃ i, a = .loopRecv i ∧ s.loops[i]? = some .running ∧ s.channel = [] ∧
      s.closed = true ∧ s' = { s with tasks := s.tasks ++ [⟨i, none, .spawned⟩] }) := by
  cases a with
  | send e =>
    simp only [State.step] at h
    split_ifs at h with hc hcl
    simp only [Option.some.injEq] at h
    exact Or.inl ⟨e, rfl, by simpa using hcl, h.symm⟩
  | close =>
    simp only [State.step] at h
    split_ifs at h with hc hcl
    simp only [Option.some.injEq] at h
    exact Or.inr (Or.inr (Or.inr (Or.inr (Or.inr (Or.inr (Or.inr (Or.inr (Or.inr (Or.inr
      (Or.inl ⟨rfl, by simpa using hcl, h.symm⟩))))))))))
  | parentCancel =>
    simp only [State.step] at h
    split_ifs at h
    simp only [Option.some.injEq] at h
    exact Or.inr (Or.inl ⟨rfl, h.symm⟩)
  | start =>
    simp only [State.step] at h
    split_ifs at h
    simp only [Option.some.injEq] at h
    exact Or.inr (Or.inr (Or.inl ⟨rfl, h.symm⟩))
  | loopCancel i =>
    simp only [State.step] at h
    split_ifs at h with hc hg hd
    · simp only [Option.some.injEq] at h
      exact Or.inr (Or.inr (Or.inr (Or.inl ⟨i, rfl, hg.1, hg.2, hd, h.symm⟩)))
    · simp only [Option.some.injEq] at h
      exact Or.inr (Or.inr (Or.inr (Or.inr (Or.inl
        ⟨i, rfl, hg.1, hg.2, by simpa using hd, h.symm⟩))))
  | loopRecv i =>
    simp only [State.step] at h
    split at h
    · simp at h
    split at h
    swap
    · simp at h
    rename_i hg
    split at h
    · rename_i hch
      split at h
      · rename_i hcl
        simp only [Option.some.injEq] at h
        exact Or.inr (Or.inr (Or.inr (Or.inr (Or.inr (Or.inr (Or.inr (Or.inr (Or.inr (Or.inr
          (Or.inr ⟨i, rfl, hg, hch, hcl, h.symm⟩))))))))))
      · simp at h
    · rename_i e rest hch
      simp only [Option.some.injEq] at h
      exact Or.inr (Or.inr (Or.inr (Or.inr (Or.inr (Or.inl
        ⟨i, e, rest, rfl, hg, hch, h.symm⟩)))))
  | taskBegin j =>
    simp only [State.step] at h
    split_ifs at h
    split at h
    · rename_i t ht
      split_ifs at h with hst
      simp only [Option.some.injEq] at h
      exact Or.inr (Or.inr (Or.inr (Or.inr (Or.inr (Or.inr (Or.inl
        ⟨j, t, rfl, ht, hst, h.symm⟩))))))
    · simp at h
  | taskReturn j =>
    simp only [State.step] at h
    split_ifs at h
    split at h
    · rename_i t ht
      split_ifs at h with hst
      simp only [Option.some.injEq] at h
      exact Or.inr (Or.inr (Or.inr (Or.inr (Or.inr (Or.inr (Or.inr (Or.inl
        ⟨j, t, rfl, ht, hst, h.symm⟩)))))))
    · simp at h
  | stopCancel =>
    simp only [State.step] at h
    split_ifs at h
    simp only [Option.some.injEq] at h
    exact Or.inr (Or.inr (Or.inr (Or.inr (Or.inr (Or.inr (Or.inr (Or.inr (Or.inl
      ⟨rfl, h.symm⟩))))))))
  | stopReturn k =>
    simp only [State.step] at h
    split_ifs at h with hc hg
    simp only [Option.some.injEq] at h
    exact Or.inr (Or.inr (Or.inr (Or.inr (Or.inr (Or.inr (Or.inr (Or.inr (Or.inr
      (Or.inl ⟨k, rfl, hg.1, hg.2, h.symm⟩)))))))))

theorem sends_append (xs ys : List Action) : sends (xs ++ ys) = sends xs ++ sends ys := by
  induction xs with
  | nil => rfl
  | cons a r ih =>
    cases a <;> simp [sends, ih]

/-- Once the channel is closed it stays closed. -/
theorem step_closed {s s' : State} {a : Action} (h : s.step a = some s')
    (hcl : s.closed = true) : s'.closed = true ∧ sends [a] = [] := by
  rcases step_cases h with ⟨e, rfl, hop, rfl⟩ | ⟨rfl, rfl⟩ | ⟨rfl, rfl⟩ | ⟨i, rfl, _, _, _, rfl⟩ |
    ⟨i, rfl, _, _, _, rfl⟩ | ⟨i, e, rest, rfl, _, hch, rfl⟩ | ⟨j, t, rfl, ht, _, rfl⟩ |
    ⟨j, t, rfl, ht, _, rfl⟩ | ⟨rfl, rfl⟩ | ⟨k, rfl, _, _, rfl⟩ |
    ⟨rfl, hop, rfl⟩ | ⟨i, rfl, hi, hch₀, _, rfl⟩
  all_goals first
    | exact ⟨hcl, rfl⟩
    | exact ⟨rfl, rfl⟩
    | simp [hcl] at hop

theorem exec_closed {s s' : State} {acts : List Action} (h : s.exec acts = some s')
    (hcl : s.closed = true) : s'.closed = true ∧ sends acts = [] := by
  induction acts generalizing s with
  | nil =>
    simp only [State.exec, Option.some.injEq] at h
    exact ⟨h ▸ hcl, rfl⟩
  | cons a r ih =>
    simp only [State.exec] at h
    split at h
    · rename_i s₁ hs₁
      obtain ⟨h₁, h₂⟩ := step_closed hs₁ hcl
      obtain ⟨k₁, k₂⟩ := ih h h₁
      refine ⟨k₁, ?_⟩
      rw [show a :: r = [a] ++ r from rfl, sends_append, h₂, k₂]
      rfl
    · simp at h

/-- One step moves a value from the channel to the handler, or adds the value
sent at the end of the channel, or leaves both alone; or, on a closed channel
with nothing left on it, hands a nil to the handler. -/
theorem step_dispatched_channel {s s' : State} {a : Action} (h : s.step a = some s') :
    ∃ k, s'.dispatched ++ s'.channel =
        s.dispatched ++ s.channel ++ sends [a] ++ List.replicate k none ∧
      (s.closed = false → k = 0) := by
  rcases step_cases h with ⟨e, rfl, hop, rfl⟩ | ⟨rfl, rfl⟩ | ⟨rfl, rfl⟩ | ⟨i, rfl, _, _, _, rfl⟩ |
    ⟨i, rfl, _, _, _, rfl⟩ | ⟨i, e, rest, rfl, _, hch, rfl⟩ | ⟨j, t, rfl, ht, _, rfl⟩ |
    ⟨j, t, rfl, ht, _, rfl⟩ | ⟨rfl, rfl⟩ | ⟨k, rfl, _, _, rfl⟩ |
    ⟨rfl, hop, rfl⟩ | ⟨i, rfl, hi, hch₀, hcl, rfl⟩
  case inr.inr.inr.inr.inr.inr.inr.inr.inr.inr.inr =>
    refine ⟨1, ?_, fun h₀ => ?_⟩
    · simp [State.dispatched, sends, hch₀]
    · simp [hcl] at h₀
  all_goals refine ⟨0, ?_, fun _ => rfl⟩
  all_goals first
    | simp [State.dispatched, sends, -List.map_set, map_evt_set _ _ _ _ ht]
    | simp [State.dispatched, sends, *]

/-- In an execution, the values handed to the handler followed by those still on
the channel are those that were there, followed by those sent, followed by the
nils received from the closed channel. -/
theorem exec_dispatched_channel {s s' : State} {acts : List Action}
    (h : s.exec acts = some s') :
    ∃ k, s'.dispatched ++ s'.channel =
        s.dispatched ++ s.channel ++ sends acts ++ List.replicate k none ∧
      (s'.closed = false → k = 0) := by
  induction acts generalizing s with
  | nil =>
    simp only [State.exec, Option.some.injEq] at h
    subst h
    exact ⟨0, by simp [sends], fun _ => rfl⟩
  | cons a r ih =>
    simp only [State.exec] at h
    split at h
    · rename_i s₁ hs₁
      obtain ⟨k₀, e₀, z₀⟩ := step_dispatched_channel hs₁
      obtain ⟨k, e₁, z₁⟩ := ih h
      rw [show a :: r = [a] ++ r from rfl, sends_append]
      cases hcl : s.closed with
      | false =>
        have hk₀ := z₀ hcl
        subst hk₀
        refine ⟨k, ?_, z₁⟩
        rw [e₁, e₀]
        simp
      | true =>
        obtain ⟨c₁, _⟩ := step_closed hs₁ hcl
        obtain ⟨c₂, n₂⟩ := exec_closed h c₁
        refine ⟨k₀ + k, ?_, fun h₀ => ?_⟩
        · rw [e₁, e₀, n₂, List.replicate_add]
          simp
        · simp [c₂] at h₀
    · simp at h

/-! ### Invariants of the loop -/

theorem NewSerfer_inv (c : List (Option Event)) (p : Bool) : (NewSerfer c p).Inv :=
  ⟨fun _ h => by simp [NewSerfer] at h, fun h => by simp [NewSerfer] at h,
   fun h => by simp [NewSerfer] at h, fun h => by simp [NewSerfer] at h,
   fun h => by simp [NewSerfer] at h⟩

theorem step_inv {s s' : State} {a : Action} (hi : s.Inv) (h : s.step a = some s') :
    s'.Inv := by
  have hc := step_not_crashed h
  rcases step_cases h with ⟨e, rfl, hop, rfl⟩ | ⟨rfl, rfl⟩ | ⟨rfl, rfl⟩ | ⟨i, rfl, hl, hx, hd, rfl⟩ |
    ⟨i, rfl, hl, hx, hd, rfl⟩ | ⟨i, e, rest, rfl, _, hch, rfl⟩ | ⟨j, t, rfl, ht, _, rfl⟩ |
    ⟨j, t, rfl, ht, _, rfl⟩ | ⟨rfl, rfl⟩ | ⟨k, rfl, hk, hd, rfl⟩ |
    ⟨rfl, hop, rfl⟩ | ⟨i, rfl, _, hch₀, hcl, rfl⟩
  · exact ⟨hi.done_exited, hi.returned_done, hi.crashed_loops, hi.done_ctx, hi.stops_ctx⟩
  · exact ⟨hi.done_exited, hi.returned_done, hi.crashed_loops, fun _ => rfl, fun _ => rfl⟩
  · refine ⟨fun h₁ h₂ => List.mem_append_left _ (hi.done_exited h₁ h₂), hi.returned_done,
      fun h₁ => ?_, hi.done_ctx, hi.stops_ctx⟩
    simp [hc] at h₁
  · refine ⟨fun h₁ => by simp at h₁, hi.returned_done, fun _ => ?_, hi.done_ctx,
      hi.stops_ctx⟩
    simp only [List.length_set]
    exact two_le_length_of_mem_of_getElem? _ i .exited .running (hi.done_exited hc hd) hl
      (by decide)
  · refine ⟨fun _ _ => mem_set_of_getElem? _ _ _ _ hl, fun _ => rfl, fun h₁ => ?_,
      fun _ => hx, hi.stops_ctx⟩
    simp [hc] at h₁
  · exact ⟨hi.done_exited, hi.returned_done, hi.crashed_loops, hi.done_ctx, hi.stops_ctx⟩
  · exact ⟨hi.done_exited, hi.returned_done, hi.crashed_loops, hi.done_ctx, hi.stops_ctx⟩
  · exact ⟨hi.done_exited, hi.returned_done, hi.crashed_loops, hi.done_ctx, hi.stops_ctx⟩
  · refine ⟨hi.done_exited, fun h₁ => hi.returned_done ?_, hi.crashed_loops, fun _ => rfl,
      fun _ => rfl⟩
    simpa using h₁
  · refine ⟨hi.done_exited, fun _ => hd, hi.crashed_loops, hi.done_ctx,
      fun _ => hi.stops_ctx ?_⟩
    intro h₀
    simp [h₀] at hk
  · exact ⟨hi.done_exited, hi.returned_done, hi.crashed_loops, hi.done_ctx, hi.stops_ctx⟩
  · exact ⟨hi.done_exited, hi.returned_done, hi.crashed_loops, hi.done_ctx, hi.stops_ctx⟩

theorem exec_inv {s s' : State} {acts : List Action} (hi : s.Inv)
    (h : s.exec acts = some s') : s'.Inv := by
  induction acts generalizing s with
  | nil =>
    simp only [State.exec, Option.some.injEq] at h
    exact h ▸ hi
  | cons a r ih =>
    simp only [State.exec] at h
    split at h
    · rename_i s₁ hs₁
      exact ih (step_inv hi hs₁) h
    · simp at h

/-- A step never removes a loop. -/
theorem step_loops_length {s s' : State} {a : Action} (h : s.step a = some s') :
    s.loops.length ≤ s'.loops.length := by
  rcases step_cases h with ⟨e, rfl, hop, rfl⟩ | ⟨rfl, rfl⟩ | ⟨rfl, rfl⟩ | ⟨i, rfl, _, _, _, rfl⟩ |
    ⟨i, rfl, _, _, _, rfl⟩ | ⟨i, e, rest, rfl, _, _, rfl⟩ | ⟨j, t, rfl, _, _, rfl⟩ |
    ⟨j, t, rfl, _, _, rfl⟩ | ⟨rfl, rfl⟩ | ⟨k, rfl, _, _, rfl⟩ |
    ⟨rfl, hop, rfl⟩ | ⟨i, rfl, hi, hch₀, hcl, rfl⟩
  all_goals simp

theorem exec_loops_length {s s' : State} {acts : List Action} (h : s.exec acts = some s') :
    s.loops.length ≤ s'.loops.length := by
  induction acts generalizing s with
  | nil =>
    simp only [State.exec, Option.some.injEq] at h
    exact h ▸ le_refl _
  | cons a r ih =>
    simp only [State.exec] at h
    split at h
    · rename_i s₁ hs₁
      exact le_trans (step_loops_length hs₁) (ih h)
    · simp at h

/-- Once the only loop has exited, a step that launches no further loop receives
nothing and hands nothing to the handler. -/
theorem step_after_exit {s s' : State} {a : Action} (h : s.step a = some s')
    (hl : s.loops = [.exited]) (hlen : s'.loops.length ≤ 1) :
    s'.loops = [.exited] ∧ s'.dispatched = s.dispatched ∧ s.channel <+: s'.channel := by
  rcases step_cases h with ⟨e, rfl, hop, rfl⟩ | ⟨rfl, rfl⟩ | ⟨rfl, rfl⟩ | ⟨i, rfl, hi, _, _, rfl⟩ |
    ⟨i, rfl, hi, _, _, rfl⟩ | ⟨i, e, rest, rfl, hi, _, rfl⟩ | ⟨j, t, rfl, ht, _, rfl⟩ |
    ⟨j, t, rfl, ht, _, rfl⟩ | ⟨rfl, rfl⟩ | ⟨k, rfl, _, _, rfl⟩ |
    ⟨rfl, hop, rfl⟩ | ⟨i, rfl, hi, hch₀, hcl, rfl⟩
  · exact ⟨hl, rfl, List.prefix_append _ _⟩
  · exact ⟨hl, rfl, List.prefix_refl _⟩
  · simp [hl] at hlen
  · cases i <;> simp [hl] at hi
  · cases i <;> simp [hl] at hi
  · cases i <;> simp [hl] at hi
  · exact ⟨hl, map_evt_set _ _ _ _ ht, List.prefix_refl _⟩
  · exact ⟨hl, map_evt_set _ _ _ _ ht, List.prefix_refl _⟩
  · exact ⟨hl, rfl, List.prefix_refl _⟩
  · exact ⟨hl, rfl, List.prefix_refl _⟩
  · exact ⟨hl, rfl, List.prefix_refl _⟩
  · cases i <;> simp [hl] at hi

theorem exec_after_exit {s s' : State} {acts : List Action} (h : s.exec acts = some s')
    (hl : s.loops = [.exited]) (hlen : s'.loops.length ≤ 1) :
    s'.loops = [.exited] ∧ s'.dispatched = s.dispatched ∧ s.channel <+: s'.channel := by
  induction acts generalizing s with
  | nil =>
    simp only [State.exec, Option.some.injEq] at h
    subst h
    exact ⟨hl, rfl, List.prefix_refl _⟩
  | cons a r ih =>
    simp only [State.exec] at h
    split at h
    · rename_i s₁ hs₁
      obtain ⟨h₁, h₂, h₃⟩ :=
        step_after_exit hs₁ hl (le_trans (exec_loops_length h) hlen)
      obtain ⟨k₁, k₂, k₃⟩ := ih h h₁
      exact ⟨k₁, k₂.trans h₂, h₃.trans k₃⟩
    · simp at h

/-- Without a call of `Start` there is no loop. -/
theorem step_loops_nil {s s' : State} {a : Action} (h : s.step a = some s')
    (ha : a ≠ .start) (hl : s.loops = []) : s'.loops = [] := by
  rcases step_cases h with ⟨e, rfl, hop, rfl⟩ | ⟨rfl, rfl⟩ | ⟨rfl, rfl⟩ | ⟨i, rfl, hi, _, _, rfl⟩ |
    ⟨i, rfl, hi, _, _, rfl⟩ | ⟨i, e, rest, rfl, hi, _, rfl⟩ | ⟨j, t, rfl, ht, _, rfl⟩ |
    ⟨j, t, rfl, ht, _, rfl⟩ | ⟨rfl, rfl⟩ | ⟨k, rfl, _, _, rfl⟩ |
    ⟨rfl, hop, rfl⟩ | ⟨i, rfl, hi, hch₀, hcl, rfl⟩
  all_goals first
    | exact hl
    | exact absurd rfl ha
    | simp [hl] at hi

theorem exec_loops_nil {s s' : State} {acts : List Action} (h : s.exec acts = some s')
    (ha : Action.start ∉ acts) (hl : s.loops = []) : s'.loops = [] := by
  induction acts generalizing s with
  | nil =>
    simp only [State.exec, Option.some.injEq] at h
    exact h ▸ hl
  | cons a r ih =>
    simp only [List.mem_cons, not_or] at ha
    simp only [State.exec] at h
    split at h
    · rename_i s₁ hs₁
      exact ih h ha.2 (step_loops_nil hs₁ (Ne.symm ha.1) hl)
    · simp at h

/-- The only step that closes `done` is the cancellation case of a loop. -/
theorem step_closes_done {s s' : State} {a : Action} (h : s.step a = some s')
    (hd : s.done = false) (hd' : s'.done = true) :
    ∃ i, a = .loopCancel i ∧ s.loops[i]? = some .running := by
  rcases step_cases h with ⟨e, rfl, hop, rfl⟩ | ⟨rfl, rfl⟩ | ⟨rfl, rfl⟩ | ⟨i, rfl, hi, _, _, rfl⟩ |
    ⟨i, rfl, hi, _, _, rfl⟩ | ⟨i, e, rest, rfl, _, _, rfl⟩ | ⟨j, t, rfl, ht, _, rfl⟩ |
    ⟨j, t, rfl, ht, _, rfl⟩ | ⟨rfl, rfl⟩ | ⟨k, rfl, _, _, rfl⟩ |
    ⟨rfl, hop, rfl⟩ | ⟨i, rfl, hi, hch₀, hcl, rfl⟩
  all_goals first
    | exact ⟨i, rfl, hi⟩
    | simp [hd] at hd'


/-- The number of loops is the number of calls of `Start`. -/
theorem step_loops_count {s s' : State} {a : Action} (h : s.step a = some s') :
    s'.loops.length = s.loops.length + [a].count .start := by
  rcases step_cases h with ⟨e, rfl, hop, rfl⟩ | ⟨rfl, rfl⟩ | ⟨rfl, rfl⟩ | ⟨i, rfl, _, _, _, rfl⟩ |
    ⟨i, rfl, _, _, _, rfl⟩ | ⟨i, e, rest, rfl, _, _, rfl⟩ | ⟨j, t, rfl, _, _, rfl⟩ |
    ⟨j, t, rfl, _, _, rfl⟩ | ⟨rfl, rfl⟩ | ⟨k, rfl, _, _, rfl⟩ |
    ⟨rfl, hop, rfl⟩ | ⟨i, rfl, hi, hch₀, hcl, rfl⟩
  all_goals simp

theorem exec_loops_count {s s' : State} {acts : List Action} (h : s.exec acts = some s') :
    s'.loops.length = s.loops.length + acts.count .start := by
  induction acts generalizing s with
  | nil =>
    simp only [State.exec, Option.some.injEq] at h
    subst h
    simp
  | cons a r ih =>
    simp only [State.exec] at h
    split at h
    · rename_i s₁ hs₁
      rw [ih h, step_loops_count hs₁, show a :: r = [a] ++ r from rfl, List.count_append]
      omega
    · simp at h

theorem exec_append {s : State} {xs ys : List Action} :
    s.exec (xs ++ ys) = (s.exec xs).bind (fun s₁ => s₁.exec ys) := by
  induction xs generalizing s with
  | nil => rfl
  | cons a r ih =>
    simp only [List.cons_append, State.exec]
    cases s.step a with
    | none => rfl
    | some s₁ => exact ih

/-! ## C11: shutdown -/

/-- C11: in every execution with a single call of `Start`, once a call of
`Stop` has returned the loop has taken the cancellation case, closed `done` and
exited; from then on nothing is handed to the handler and every value sitting
on the channel stays there. -/
theorem c11_shutdown (c : List (Option Event)) (p : Bool) (acts₁ acts₂ : List Action)
    (s₁ s₂ : State)
    (h₁ : (NewSerfer c p).exec acts₁ = some s₁) (h₂ : s₁.exec acts₂ = some s₂)
    (hstart : (acts₁ ++ acts₂).count .start ≤ 1)
    (hret : StopStatus.returned ∈ s₁.stops) :
    (s₁.loops = [.exited] ∧ s₁.done = true ∧ s₁.ctxDone = true) ∧
    s₂.loops = [.exited] ∧ s₂.dispatched = s₁.dispatched ∧ s₁.channel <+: s₂.channel := by
  have hi := exec_inv (NewSerfer_inv c p) h₁
  have hd := hi.returned_done hret
  rw [List.count_append] at hstart
  have hlen₁ := exec_loops_count h₁
  have hlen₂ := exec_loops_count h₂
  simp only [NewSerfer, List.length_nil, zero_add] at hlen₁
  have hc : s₁.crashed = false := by
    cases hcr : s₁.crashed with
    | false => rfl
    | true =>
      have := hi.crashed_loops hcr
      omega
  have hex := hi.done_exited hc hd
  have hl : s₁.loops = [.exited] := by
    match hs : s₁.loops with
    | [] => simp [hs] at hex
    | [x] =>
      simp only [hs, List.mem_singleton] at hex
      rw [← hex]
    | _ :: _ :: _ =>
      simp only [hs, List.length_cons] at hlen₁
      omega
  refine ⟨⟨hl, hd, hi.done_ctx hd⟩, exec_after_exit h₂ hl ?_⟩
  omega

/-- Witness of C11: one `Start`, two events sent, the first received, then
`Stop`; after `Stop` has returned the handler of the first event starts and one
more value is sent, and the second event is still on the channel. -/
theorem c11_shutdown_witness :
    (stateAtStop.loops = [.exited] ∧ stateAtStop.done = true ∧
      stateAtStop.ctxDone = true) ∧
    stateAfterStop.loops = [.exited] ∧
    stateAfterStop.dispatched = stateAtStop.dispatched ∧
    stateAtStop.channel <+: stateAfterStop.channel :=
  c11_shutdown [] false runToStop runAfterStop stateAtStop stateAfterStop
    (by decide) (by decide) (by decide) (by decide)

/-! ## C12: each event is dispatched once, in order -/

/-- C12, as stated, fails once the producer closes the channel: with a single
`Start`, one event sent and the channel closed, the loop receives the event and
then, the receive having no `, ok`, nil after nil from the closed channel, each
handed to the handler; after three receives the values dispatched are the event
and two nils that were never enqueued. -/
theorem c12_closed_channel_counterexample :
    (NewSerfer [] false).exec runClosedChannel = some stateClosedChannel ∧
    runClosedChannel.count .start = 1 ∧
    sends runClosedChannel = [loopTestEvent] ∧
    stateClosedChannel.dispatched = [loopTestEvent, none, none] ∧
    stateClosedChannel.dispatched ++ stateClosedChannel.channel ≠
      [] ++ sends runClosedChannel := by
  decide

/-- C12 (amended): in every execution (with a single call of `Start`, or any
number), each value received is handed to the handler once, as it was sent, in
the order of reception. As long as the producer has not closed the channel,
the values handed to the handler so far followed by the values still on the
channel are exactly the values enqueued: those on the channel at creation
followed by those sent since. In general they are the values enqueued followed
by some number of nils, those received from the closed channel. -/
theorem c12_dispatch_fifo (c : List (Option Event)) (p : Bool) (acts : List Action)
    (s : State) (h : (NewSerfer c p).exec acts = some s) :
    (s.closed = false →
      s.dispatched ++ s.channel = c ++ sends acts ∧
      s.dispatched.length + s.channel.length = c.length + (sends acts).length) ∧
    (∃ k, s.dispatched ++ s.channel = c ++ sends acts ++ List.replicate k none) ∧
    s.tasks.map Task.evt = s.dispatched := by
  obtain ⟨k, hq, hz⟩ := exec_dispatched_channel h
  simp only [NewSerfer, State.dispatched, List.map_nil, List.nil_append] at hq
  refine ⟨fun hop => ?_, ⟨k, hq⟩, rfl⟩
  have hk := hz hop
  subst hk
  simp only [List.replicate_zero, List.append_nil] at hq
  refine ⟨hq, ?_⟩
  have := congrArg List.length hq
  simpa [State.dispatched] using this

/-- Witness of C12: an execution like that of `TestRunSerfer`, in which both
values sent are received before `Stop` and the channel is never closed. -/
theorem c12_dispatch_fifo_witness :
    stateSlowHandler.dispatched ++ stateSlowHandler.channel = [] ++ sends runSlowHandler ∧
    stateSlowHandler.dispatched.length + stateSlowHandler.channel.length =
      ([] : List (Option Event)).length + (sends runSlowHandler).length :=
  (c12_dispatch_fifo [] false runSlowHandler stateSlowHandler (by decide)).1 rfl

/-! ## C13: in-flight handler invocations at `Stop` -/

/-- C13 evaluated on the code: in the execution `runToStop`, `Stop` has returned
while the `HandleEvent` invocation of the first event has not even started, and
it starts afterwards (`runAfterStop`); in `runSlowHandler`, `Stop` has returned
while an invocation is still running. The loop launches every invocation with
`go` and `Stop` waits for `done` only. -/
theorem c13_stop_does_not_wait_for_handlers :
    (NewSerfer [] false).exec runToStop = some stateAtStop ∧
    StopStatus.returned ∈ stateAtStop.stops ∧
    stateAtStop.tasks = [⟨0, loopTestEvent, .spawned⟩] ∧
    stateAtStop.step (.taskBegin 0) =
      some { stateAtStop with tasks := [⟨0, loopTestEvent, .running⟩] } ∧
    (NewSerfer [] false).exec runSlowHandler = some stateSlowHandler ∧
    StopStatus.returned ∈ stateSlowHandler.stops ∧
    (⟨0, loopTestEvent, .running⟩ : Task) ∈ stateSlowHandler.tasks := by
  decide

/-! ## C14: a slow handler does not stall intake -/

/-- C14: the loop never waits for a handler. Whatever the handler invocations
are doing (started or not, returned or not), a loop at the `select` with a value
on the channel can take it, hands it to a new invocation and is back at the
`select`; with cancellation signalled and `done` open it can take the
cancellation case, after which a waiting `Stop` can return. Whether a step of
the loop or the return of `Stop` can be taken does not depend on the handler
invocations at all. -/
theorem c14_intake_not_stalled (s : State) (i : Nat) (hc : s.crashed = false)
    (hl : s.loops[i]? = some .running) :
    (∀ e rest, s.channel = e :: rest →
      s.step (.loopRecv i) =
        some { s with channel := rest, tasks := s.tasks ++ [⟨i, e, .spawned⟩] } ∧
      ({ s with channel := rest, tasks := s.tasks ++ [⟨i, e, .spawned⟩] } : State).loops[i]? =
        some .running) ∧
    (s.ctxDone = true → s.done = false →
      s.step (.loopCancel i) = some { s with loops := s.loops.set i .exited, done := true } ∧
      ∀ k, s.stops[k]? = some .waiting →
        ({ s with loops := s.loops.set i .exited, done := true } : State).step (.stopReturn k) =
          some { s with loops := s.loops.set i .exited, done := true,
                        stops := s.stops.set k .returned }) ∧
    (∀ (ts : List Task) (k : Nat),
      (({ s with tasks := ts } : State).step (.loopRecv i)).isSome =
        (s.step (.loopRecv i)).isSome ∧
      (({ s with tasks := ts } : State).step (.loopCancel i)).isSome =
        (s.step (.loopCancel i)).isSome ∧
      (({ s with tasks := ts } : State).step (.stopReturn k)).isSome =
        (s.step (.stopReturn k)).isSome) := by
  refine ⟨?_, ?_, ?_⟩
  · intro e rest hch
    refine ⟨?_, hl⟩
    simp [State.step, hc, hl, hch]
  · intro hx hd
    refine ⟨?_, ?_⟩
    · simp [State.step, hc, hl, hx, hd]
    · intro k hk
      simp [State.step, hc, hk]
  · intro ts k
    refine ⟨?_, ?_, ?_⟩
    · simp only [State.step, hc, hl]
      cases s.channel <;> cases s.closed <;> rfl
    · simp only [State.step, hc, hl]
      cases s.ctxDone <;> cases s.done <;> rfl
    · simp only [State.step, hc]
      split_ifs <;> rfl

/-- Witness of C14: with the handler of a first event running (and not
returning), the loop takes the next value off the channel and is back at the
`select`; and the whole of `runSlowHandler`, `Stop` included, can be run. -/
theorem c14_intake_not_stalled_witness :
    (stateHandlerBusy.step (.loopRecv 0) =
        some { stateHandlerBusy with
               channel := [], tasks := stateHandlerBusy.tasks ++ [⟨0, none, .spawned⟩] } ∧
      ({ stateHandlerBusy with
          channel := [],
          tasks := stateHandlerBusy.tasks ++ [⟨0, none, .spawned⟩] } : State).loops[0]? =
        some .running) ∧
    (NewSerfer [] false).exec runSlowHandler = some stateSlowHandler :=
  ⟨(c14_intake_not_stalled stateHandlerBusy 0 rfl rfl).1 none [] rfl, by decide⟩

/-! ## C17: `Start` called twice -/

/-- C17: `Start` has no guard: in every state of a running program it launches
one more loop over the same channel, cancellation and `done`. With two loops at
the `select`, cancellation signalled and `done` open, both can take the
cancellation case one after the other, and the second `close(s.done)` panics:
the program crashes. In every execution, whatever the number of loops, a value
on the channel is received once: the values handed to the handler followed by
those still on the channel are the values that were there followed by those
sent (and, once the producer has closed the channel, by the nils received from
it). -/
theorem c17_double_start (s : State) (hc : s.crashed = false) :
    s.step .start = some { s with loops := s.loops ++ [.running] } ∧
    (∀ i j, i ≠ j → s.ctxDone = true → s.done = false →
      s.loops[i]? = some .running → s.loops[j]? = some .running →
      s.exec [.loopCancel i, .loopCancel j] =
        some { s with loops := (s.loops.set i .exited).set j .panicked,
                      done := true, crashed := true }) ∧
    (∀ acts s', s.exec acts = some s' →
      ∃ k, s'.dispatched ++ s'.channel =
          s.dispatched ++ s.channel ++ sends acts ++ List.replicate k none ∧
        (s'.closed = false → k = 0)) := by
  refine ⟨?_, ?_, fun acts s' h => exec_dispatched_channel h⟩
  · simp [State.step, hc]
  · intro i j hij hx hd hi hj
    have hj' : (s.loops.set i .exited)[j]? = some .running := by
      rw [List.getElem?_set_ne hij]
      exact hj
    simp [State.exec, State.step, hc, hx, hd, hi, hj']

/-- Witness of C17: from `NewSerfer`, two calls of `Start`, then `Stop`; both
loops take the cancellation case and the second close of `done` crashes the
program. -/
theorem c17_double_start_witness :
    (NewSerfer [] false).step .start =
      some { NewSerfer [] false with loops := [] ++ [.running] } ∧
    stateTwoLoops.exec [.loopCancel 0, .loopCancel 1] = some stateDoubleStart ∧
    (NewSerfer [] false).exec runDoubleStart = some stateDoubleStart :=
  ⟨(c17_double_start (NewSerfer [] false) rfl).1,
   (c17_double_start stateTwoLoops rfl).2.1 0 1 (by decide) rfl rfl rfl rfl,
   by decide⟩

/-! ## C18: `Stop` called again -/

/-- C18: in every execution with a single call of `Start`, once a call of
`Stop` has returned, a further call of `Stop` runs to its end at once (its
`s.cancel()` and its receive from `done` can both be taken), without a crash,
and changes nothing but the record of the call itself: cancellation was and
stays signalled, `done` was and stays closed. The same holds step by step: the
`s.cancel()` of a further call only adds the waiting call, and any waiting call
can return. -/
theorem c18_stop_again (c : List (Option Event)) (p : Bool) (acts : List Action) (s : State)
    (h : (NewSerfer c p).exec acts = some s) (hstart : acts.count .start ≤ 1)
    (hret : StopStatus.returned ∈ s.stops) :
    s.exec [.stopCancel, .stopReturn s.stops.length] =
      some { s with stops := s.stops ++ [.returned] } ∧
    s.step .stopCancel = some { s with stops := s.stops ++ [.waiting] } ∧
    (∀ k, s.stops[k]? = some .waiting →
      s.step (.stopReturn k) = some { s with stops := s.stops.set k .returned }) ∧
    s.ctxDone = true ∧ s.done = true ∧ s.crashed = false := by
  have hi := exec_inv (NewSerfer_inv c p) h
  have hd := hi.returned_done hret
  have hx := hi.done_ctx hd
  have hlen := exec_loops_count h
  simp only [NewSerfer, List.length_nil, zero_add] at hlen
  have hc : s.crashed = false := by
    cases hcr : s.crashed with
    | false => rfl
    | true =>
      have := hi.crashed_loops hcr
      omega
  refine ⟨?_, ?_, ?_, hx, hd, hc⟩
  · obtain ⟨ch, cl, cx, dn, ls, ts, ss, cr⟩ := s
    simp only at hd hx hc
    subst hd hx hc
    simp [State.exec, State.step]
  · obtain ⟨ch, cl, cx, dn, ls, ts, ss, cr⟩ := s
    simp only at hd hx hc
    subst hd hx hc
    simp [State.step]
  · intro k hk
    simp [State.step, hc, hd, hk]

/-- Witness of C18: after `runToStop`, a second `Stop` returns at once. -/
theorem c18_stop_again_witness :
    stateAtStop.exec [.stopCancel, .stopReturn stateAtStop.stops.length] =
      some { stateAtStop with stops := stateAtStop.stops ++ [.returned] } ∧
    stateAtStop.step .stopCancel =
      some { stateAtStop with stops := stateAtStop.stops ++ [.waiting] } ∧
    (∀ k, stateAtStop.stops[k]? = some .waiting →
      stateAtStop.step (.stopReturn k) =
        some { stateAtStop with stops := stateAtStop.stops.set k .returned }) ∧
    stateAtStop.ctxDone = true ∧ stateAtStop.done = true ∧ stateAtStop.crashed = false :=
  c18_stop_again [] false runToStop stateAtStop (by decide) (by decide) (by decide)

/-! ## C19: `Stop` on an instance that was never started -/

/-- C19: `done` is closed only by a loop: the only step that closes it is the
cancellation case of a loop at the `select`. In every state reached without a
call of `Start` there is no loop, `done` is open, no call of `Stop` has returned
and none can return; a call of `Stop` has signalled cancellation. -/
theorem c19_stop_never_started (c : List (Option Event)) (p : Bool) (acts : List Action)
    (s : State) (h : (NewSerfer c p).exec acts = some s) (hns : Action.start ∉ acts) :
    (∀ (t t' : State) (a : Action), t.step a = some t' → t.done = false → t'.done = true →
      ∃ i, a = .loopCancel i ∧ t.loops[i]? = some .running) ∧
    s.loops = [] ∧ s.done = false ∧ StopStatus.returned ∉ s.stops ∧
    (∀ k, s.step (.stopReturn k) = none) ∧
    (s.stops ≠ [] → s.ctxDone = true) := by
  have hi := exec_inv (NewSerfer_inv c p) h
  have hl : s.loops = [] := exec_loops_nil h hns rfl
  have hc : s.crashed = false := by
    cases hcr : s.crashed with
    | false => rfl
    | true =>
      have := hi.crashed_loops hcr
      simp [hl] at this
  have hd : s.done = false := by
    cases hdn : s.done with
    | false => rfl
    | true =>
      have := hi.done_exited hc hdn
      simp [hl] at this
  refine ⟨fun t t' a ht h₀ h₁ => step_closes_done ht h₀ h₁, hl, hd, ?_, ?_, hi.stops_ctx⟩
  · intro hr
    have := hi.returned_done hr
    simp [hd] at this
  · intro k
    simp [State.step, hd]

/-- Witness of C19: a value is sent and `Stop` is called on an instance that
was never started: cancellation is signalled, `done` is open and the receive of
`Stop` cannot complete. -/
theorem c19_stop_never_started_witness :
    (∀ (t t' : State) (a : Action), t.step a = some t' → t.done = false → t'.done = true →
      ∃ i, a = .loopCancel i ∧ t.loops[i]? = some .running) ∧
    stateNeverStarted.loops = [] ∧ stateNeverStarted.done = false ∧
    StopStatus.returned ∉ stateNeverStarted.stops ∧
    (∀ k, stateNeverStarted.step (.stopReturn k) = none) ∧
    (stateNeverStarted.stops ≠ [] → stateNeverStarted.ctxDone = true) :=
  c19_stop_never_started [] false runNeverStarted stateNeverStarted (by decide) (by decide)

/-! ## C15: one handler invocation, or a logged no-op -/

/-- The arm of the switch for user events. -/
theorem HandleEvent_userType (s : SerfEventHandler) (e : Event)
    (ht : e.EventType = EventUser) :
    s.HandleEvent (some e) =
      match e.assertUserEvent with
      | .ok u => s.handleUserEvent u
      | .error p => Run.fail p := by
  simp [SerfEventHandler.HandleEvent, ht, EventMemberJoin, EventMemberLeave,
    EventMemberFailed, EventMemberReap, EventUser]

/-- An event type is one of the seven known ones or is outside the known set. -/
theorem eventType_cases (t : EventType) :
    t = EventMemberJoin ∨ t = EventMemberLeave ∨ t = EventMemberFailed ∨
    t = EventMemberUpdate ∨ t = EventMemberReap ∨ t = EventUser ∨ t = EventQuery ∨
    t ∉ knownEventTypes := by
  simp only [knownEventTypes, List.mem_cons, List.mem_singleton, List.not_mem_nil, or_false]
  tauto

/-- What a guarded arm of the switch does: one handler call, or a panic of the
conversion, or nothing at all when the slot is empty. -/
theorem guarded_cases {α : Type} (slot : Option Handler) (conv : Except Panic α)
    (method : Handler → α → Effect) (hm : ∀ h x, (method h x).isHandlerCall = true) :
    (guarded slot conv method).handlerCalls.length ≤ 1 ∧
    ((guarded slot conv method).handlerCalls = [] →
      (guarded slot conv method).panic ≠ none ∨
      (guarded slot conv method = ⟨[], none⟩ ∧ slot = none)) := by
  cases slot with
  | none => exact ⟨by simp [guarded, Run.skip, Run.handlerCalls], fun _ => Or.inr ⟨rfl, rfl⟩⟩
  | some h =>
    cases conv with
    | error p =>
      exact ⟨by simp [guarded, Run.fail, Run.handlerCalls], fun _ => Or.inl (by simp [guarded, Run.fail])⟩
    | ok x =>
      refine ⟨by simp [guarded, Run.call, Run.handlerCalls, hm], fun h₀ => ?_⟩
      simp [guarded, Run.call, Run.handlerCalls, hm] at h₀

/-- C15, as stated, fails: on the registry with a logger and every handler slot
empty, the join event of the test suite leads to no handler invocation and to
no log message either. -/
theorem c15_silent_drop_counterexample :
    bareHandlerWithLogger.HandleEvent (some (.member ⟨EventMemberJoin, [suiteMember]⟩)) =
      ⟨[], none⟩ ∧
    (bareHandlerWithLogger.HandleEvent
      (some (.member ⟨EventMemberJoin, [suiteMember]⟩))).handlerCalls = [] ∧
    (bareHandlerWithLogger.HandleEvent
      (some (.member ⟨EventMemberJoin, [suiteMember]⟩))).logCalls = [] := by
  decide

/-- C15 (amended): for every registry and every non-nil event, `HandleEvent`
makes at most one handler invocation. When it makes none, it has made a log
call, or it has panicked (a nil `Logger`, or a conversion that failed), or the
event is of a member or query kind whose handler slot is empty and `HandleEvent`
has returned having done nothing. -/
theorem c15_one_invocation_or_drop (s : SerfEventHandler) (e : Event) :
    (s.HandleEvent (some e)).handlerCalls.length ≤ 1 ∧
    ((s.HandleEvent (some e)).handlerCalls = [] →
      (s.HandleEvent (some e)).logCalls ≠ [] ∨
      (s.HandleEvent (some e)).panic ≠ none ∨
      (s.HandleEvent (some e) = ⟨[], none⟩ ∧
        (e.EventType ∈ memberEventTypes ∨ e.EventType = EventQuery) ∧
        s.slotOf e.EventType = none)) := by
  rcases eventType_cases e.EventType with ht | ht | ht | ht | ht | ht | ht | ht
  · rw [HandleEvent_join s e ht]
    have hg := guarded_cases s.NodeJoined e.assertMemberEvent .HandleMemberJoin
      (fun _ _ => rfl)
    refine ⟨hg.1, fun h₀ => Or.inr ?_⟩
    rcases hg.2 h₀ with hp | ⟨hr, hs⟩
    · exact Or.inl hp
    · exact Or.inr ⟨hr, by simp [ht, memberEventTypes], by simp [SerfEventHandler.slotOf, ht, hs]⟩
  · rw [HandleEvent_leave s e ht]
    have hg := guarded_cases s.NodeLeft e.assertMemberEvent .HandleMemberLeave
      (fun _ _ => rfl)
    refine ⟨hg.1, fun h₀ => Or.inr ?_⟩
    rcases hg.2 h₀ with hp | ⟨hr, hs⟩
    · exact Or.inl hp
    · exact Or.inr ⟨hr, by simp [ht, memberEventTypes],
        by simp [SerfEventHandler.slotOf, ht, hs, EventMemberJoin, EventMemberLeave]⟩
  · rw [HandleEvent_failed s e ht]
    have hg := guarded_cases s.NodeFailed e.assertMemberEvent .HandleMemberFailure
      (fun _ _ => rfl)
    refine ⟨hg.1, fun h₀ => Or.inr ?_⟩
    rcases hg.2 h₀ with hp | ⟨hr, hs⟩
    · exact Or.inl hp
    · exact Or.inr ⟨hr, by simp [ht, memberEventTypes],
        by simp [SerfEventHandler.slotOf, ht, hs, EventMemberJoin, EventMemberLeave,
          EventMemberFailed]⟩
  · rw [HandleEvent_update s e ht]
    have hg := guarded_cases s.NodeUpdated e.assertMemberEvent .HandleMemberUpdate
      (fun _ _ => rfl)
    refine ⟨hg.1, fun h₀ => Or.inr ?_⟩
    rcases hg.2 h₀ with hp | ⟨hr, hs⟩
    · exact Or.inl hp
    · exact Or.inr ⟨hr, by simp [ht, memberEventTypes],
        by simp [SerfEventHandler.slotOf, ht, hs, EventMemberJoin, EventMemberLeave,
          EventMemberFailed, EventMemberReap, EventMemberUpdate]⟩
  · rw [HandleEvent_reap s e ht]
    have hg := guarded_cases s.NodeReaped e.assertMemberEvent .HandleMemberReap
      (fun _ _ => rfl)
    refine ⟨hg.1, fun h₀ => Or.inr ?_⟩
    rcases hg.2 h₀ with hp | ⟨hr, hs⟩
    · exact Or.inl hp
    · exact Or.inr ⟨hr, by simp [ht, memberEventTypes],
        by simp [SerfEventHandler.slotOf, ht, hs, EventMemberJoin, EventMemberLeave,
          EventMemberFailed, EventMemberReap]⟩
  · rw [HandleEvent_userType s e ht]
    cases e.assertUserEvent with
    | error p => exact ⟨by simp [Run.fail, Run.handlerCalls], fun _ => Or.inr (Or.inl (by simp [Run.fail]))⟩
    | ok u =>
      simp only [SerfEventHandler.handleUserEvent]
      cases s.Logger with
      | none =>
        split_ifs <;>
        exact ⟨by simp [logCall, Run.fail, Run.andThen, Run.handlerCalls],
          fun _ => Or.inr (Or.inl (by simp [logCall, Run.fail, Run.andThen]))⟩
      | some l =>
        split_ifs
        · cases s.UserEvent <;>
          exact ⟨by simp [logCall, Run.call, Run.skip, Run.andThen, Run.handlerCalls,
              Effect.isHandlerCall],
            fun _ => Or.inl (by simp [logCall, Run.call, Run.skip, Run.andThen, Run.logCalls,
              Effect.isHandlerCall])⟩
        · cases s.UnknownEventHandler <;>
          exact ⟨by simp [logCall, Run.call, Run.skip, Run.andThen, Run.handlerCalls,
              Effect.isHandlerCall],
            fun _ => Or.inl (by simp [logCall, Run.call, Run.skip, Run.andThen, Run.logCalls,
              Effect.isHandlerCall])⟩
  · rw [HandleEvent_query s e ht]
    have hg := guarded_cases s.QueryHandler e.assertDerefQuery .HandleQueryEvent
      (fun _ _ => rfl)
    refine ⟨hg.1, fun h₀ => Or.inr ?_⟩
    rcases hg.2 h₀ with hp | ⟨hr, hs⟩
    · exact Or.inl hp
    · exact Or.inr ⟨hr, Or.inr ht,
        by simp [SerfEventHandler.slotOf, ht, hs, EventMemberJoin, EventMemberLeave,
          EventMemberFailed, EventMemberReap, EventMemberUpdate, EventQuery]⟩
  · rw [HandleEvent_default s e ht]
    cases s.Logger with
    | none =>
      exact ⟨by simp [logCall, Run.fail, Run.handlerCalls],
        fun _ => Or.inr (Or.inl (by simp [logCall, Run.fail]))⟩
    | some l =>
      exact ⟨by simp [logCall, Run.call, Run.handlerCalls, Effect.isHandlerCall],
        fun _ => Or.inl (by simp [logCall, Run.call, Run.logCalls, Effect.isHandlerCall])⟩

/-- Witness of C15: the join event of the test suite on the registry with every
handler slot empty falls in the last case, the silent drop. -/
theorem c15_one_invocation_or_drop_witness :
    (bareHandlerWithLogger.HandleEvent
      (some (.member ⟨EventMemberJoin, [suiteMember]⟩))).logCalls ≠ [] ∨
    (bareHandlerWithLogger.HandleEvent
      (some (.member ⟨EventMemberJoin, [suiteMember]⟩))).panic ≠ none ∨
    (bareHandlerWithLogger.HandleEvent (some (.member ⟨EventMemberJoin, [suiteMember]⟩)) =
        ⟨[], none⟩ ∧
      ((Event.member ⟨EventMemberJoin, [suiteMember]⟩).EventType ∈ memberEventTypes ∨
        (Event.member ⟨EventMemberJoin, [suiteMember]⟩).EventType = EventQuery) ∧
      bareHandlerWithLogger.slotOf
        (Event.member ⟨EventMemberJoin, [suiteMember]⟩).EventType = none) :=
  (c15_one_invocation_or_drop bareHandlerWithLogger
    (.member ⟨EventMemberJoin, [suiteMember]⟩)).2 (by decide)

/-! ## C16: classification and stripping agree -/

/-- C16: for every registry (with `ServicePrefix` `p`) and every name `n`,
`isServiceEvent(n)` holds exactly when `n` begins with `p ++ ":"`; when it holds,
`p ++ ":" ++ getRawEventName(n) = n`, so that one leading occurrence of the
prefix and separator is removed; when it does not, `getRawEventName(n) = n`.
With prefix `"svc"`, `"svc:svc:x"` is delivered as `"svc:x"` and `"svc:"` as the
empty name. -/
theorem c16_classification_stripping (s : SerfEventHandler) (n : String) :
    (s.isServiceEvent n = true ↔ (s.ServicePrefix ++ ":").data <+: n.data) ∧
    (s.isServiceEvent n = true → s.ServicePrefix ++ ":" ++ s.getRawEventName n = n) ∧
    (s.isServiceEvent n = false → s.getRawEventName n = n) ∧
    (svcHandler.HandleEvent (some (.user ⟨0, "svc:svc:x", [], false⟩))).handlerCalls =
      [.HandleUserEvent ⟨1⟩ ⟨0, "svc:x", [], false⟩] ∧
    (svcHandler.HandleEvent (some (.user ⟨0, "svc:", [], false⟩))).handlerCalls =
      [.HandleUserEvent ⟨1⟩ ⟨0, "", [], false⟩] := by
  refine ⟨strings.HasPrefix_iff _ _, ?_, ?_, by decide, by decide⟩
  · intro h
    obtain ⟨t, ht⟩ := (strings.HasPrefix_iff _ _).mp h
    have hn : n = s.ServicePrefix ++ ":" ++ ⟨t⟩ := by
      apply String.ext
      rw [String.data_append, ht]
    rw [SerfEventHandler.getRawEventName]
    conv_lhs => rw [hn, strings.TrimPrefix_append]
    exact hn.symm
  · intro h
    apply strings.TrimPrefix_of_not
    rw [← strings.HasPrefix_iff]
    simpa [SerfEventHandler.isServiceEvent] using h

/-- Witness of C16: with prefix `"svc"`, the name `"svc:deploy"` is a service
event and putting the prefix back on its raw name gives the name again. -/
theorem c16_classification_stripping_witness :
    svcHandler.ServicePrefix ++ ":" ++ svcHandler.getRawEventName "svc:deploy" =
      "svc:deploy" :=
  (c16_classification_stripping svcHandler "svc:deploy").2.1 (by decide)

end Serfer
